import Mathlib

/-!
A verification development for the `ggoto` terminal dashboard.

The Rust sources are shallowly embedded in Lean:

* Rust `String` values are modelled as `List Char` (`Str`); Rust's
  Unicode-aware `to_lowercase` is modelled per character by `Char.toLower`.
* Machine integers (`u16`, `u32`, `u64`, `usize`) are modelled as `Nat`;
  where overflow matters it is made explicit.
* `f32` arithmetic is modelled exactly over `Rat` (the code never produces
  `NaN` on the paths verified here, so exact arithmetic is a faithful model
  of the comparisons involved).
* `std::time::Duration` is modelled as a `Nat` count of nanoseconds,
  matching the precision of `Instant::elapsed`; `Duration::as_millis` is
  integer division by 10^6.
* External collaborators (the `regex` crate, the standard library's numeric
  parsers, the OS port-bind probe, spawned child processes, the tokio
  semaphore) are modelled as explicit parameters or as small state machines
  reflecting their documented contracts.
* Fallible Rust functions returning `anyhow::Result` are embedded with
  `Except String`.
-/

namespace Ggoto

/-- Rust strings, modelled as lists of characters. -/
abbrev Str := List Char

/-- Model of Rust `str::to_lowercase`, applied per character. -/
def lowerStr (s : Str) : Str := s.map Char.toLower

/-- Model of Rust `str::contains(pat)`: `pat` occurs as a contiguous
substring of `hay`. -/
def containsSub (hay pat : Str) : Bool := decide (List.IsInfix pat hay)

/-- Health status of a server (`src/server.rs`, `HealthStatus`). -/
inductive HealthStatus where
  | Unknown
  | Healthy
  | Degraded
  | Unreachable
deriving DecidableEq, Repr, Inhabited

/-- GPU information (`src/server.rs`, `GpuInfo`).  `utilization` is an `f32`
in the source, modelled over `Rat`; the memory fields are `u64` byte
counts. -/
structure GpuInfo where
  name : Str
  utilization : Rat
  memory_used : Nat
  memory_total : Nat
deriving DecidableEq, Repr, Inhabited

/-- System metrics fetched from a remote server (`src/server.rs`,
`SystemMetrics`).  The `has_mosh` field is the "fast-transport available"
flag assigned by the metrics parser in `src/health.rs`. -/
structure SystemMetrics where
  cpu_cores : Nat := 0
  cpu_usage : Rat := 0
  ram_used : Nat := 0
  ram_total : Nat := 0
  gpus : List GpuInfo := []
  logged_in_users : List Str := []
  load_average : Rat × Rat × Rat := (0, 0, 0)
  has_mosh : Bool := false
deriving DecidableEq, Repr, Inhabited

/-- Model of `SystemMetrics::ram_usage_percent` (`src/server.rs`): zero
when `ram_total` is zero, otherwise `ram_used / ram_total * 100`, with the
`f32` arithmetic modelled exactly over `Rat`. -/
def SystemMetrics.ram_usage_percent (m : SystemMetrics) : Rat :=
  if m.ram_total = 0 then 0 else (m.ram_used : Rat) / (m.ram_total : Rat) * 100

/-- A server from the configuration (`src/server.rs`, `Server`).  `latency`
is an optional `Duration`, modelled in nanoseconds.  The `last_check`
`Instant` carries no arithmetic content used by the claims and is modelled
as a unit-valued option. -/
structure Server where
  host : Str
  hostname : Str
  user : Option Str := none
  port : Nat := 22
  identity_file : Option Str := none
  group : Option Str := none
  latency : Option Nat := none
  status : HealthStatus := .Unknown
  metrics : Option SystemMetrics := none
  last_check : Option Unit := none
deriving DecidableEq, Repr, Inhabited

/-- Model of `Server::latency_ms`: `Duration::as_millis` truncates the
nanosecond count to whole milliseconds. -/
def Server.latency_ms (s : Server) : Option Nat := s.latency.map (fun d => d / 1000000)

/-- The compiled-regex collaborator (the external `regex` crate):
compilation either fails (`none`) or yields a match predicate.  The
embedding quantifies over every such collaborator. -/
def RegexCompile : Type := Str → Option (Str → Bool)

/-- The fourteen regex metacharacters scanned for by
`App::filtered_servers` (`src/app.rs`). -/
def regexMetaChars : List Char :=
  ['.', '*', '+', '?', '^', '$', '[', ']', '(', ')', '\x7b', '\x7d', '|', '\\']

/-- Whether the filter pattern contains a regex metacharacter
(`src/app.rs`, the `has_regex_chars` scan in `filtered_servers`). -/
def hasRegexChars (pat : Str) : Bool := pat.any (fun c => regexMetaChars.contains c)

/-- The `(?i)` prefix prepended before regex compilation in
`filtered_servers`. -/
def caseInsensitiveMarker : Str := ['(', '?', 'i', ')']

/-- The substring branch of the per-server filter predicate in
`App::filtered_servers`: case-insensitive substring match against display
name, connection target and group.  `filter_lower` is the already
lowercased pattern. -/
def serverMatchesSubstring (s : Server) (filter_lower : Str) : Bool :=
  containsSub (lowerStr s.host) filter_lower
    || containsSub (lowerStr s.hostname) filter_lower
    || s.group.any (fun g => containsSub (lowerStr g) filter_lower)

/-- The regex branch of the per-server filter predicate in
`App::filtered_servers`. -/
def serverMatchesRegex (s : Server) (re : Str → Bool) : Bool :=
  re s.host || re s.hostname || s.group.any (fun g => re g)

/-- Model of `App::filtered_servers` (`src/app.rs`): empty pattern yields
all indices; otherwise compile the pattern as a case-insensitive regex only
when it contains metacharacters, and fall back to case-insensitive
substring matching when no regex is available. -/
def filteredServers (compile : RegexCompile) (servers : List Server) (filter_text : Str) :
    List Nat :=
  if filter_text = [] then List.range servers.length
  else
    let filter_lower := lowerStr filter_text
    let has_regex_chars := hasRegexChars filter_text
    let regex : Option (Str → Bool) :=
      if has_regex_chars then compile (caseInsensitiveMarker ++ filter_text) else none
    (servers.enum.filter (fun p =>
        match regex with
        | some re => serverMatchesRegex p.2 re
        | none => serverMatchesSubstring p.2 filter_lower)).map Prod.fst

/-- Spec-side reference: the indices produced by the plain case-insensitive
substring match over display name, connection target and group. -/
def substringFilterIndices (servers : List Server) (pat : Str) : List Nat :=
  (servers.enum.filter (fun p => serverMatchesSubstring p.2 (lowerStr pat))).map Prod.fst

/-- The three example hosts of the specification's test vector. -/
def exampleServers : List Server :=
  [ { host := "ysdc1".toList, hostname := "ysdc1.example.com".toList },
    { host := "ysdc2".toList, hostname := "ysdc2.example.com".toList },
    { host := "prod-web".toList, hostname := "prod.example.com".toList } ]

/-- The exact rational value of `f32::MAX`, used by the sort comparators of
`App::sort_servers` for hosts without metrics. -/
def f32Max : Rat := 2 ^ 128 - 2 ^ 104

/-- The RAM-usage sort key of `App::sort_servers` (`SortOrder::RamUsage`
arm): the metrics' RAM usage percentage, or `f32::MAX` when the host has no
metrics. -/
def ramSortKey (s : Server) : Rat :=
  (s.metrics.map SystemMetrics.ram_usage_percent).getD f32Max

/-- The RAM-usage comparator of `App::sort_servers`.  In the source this is
`partial_cmp(..).unwrap_or(Equal)`; the keys are never NaN (the division is
guarded by the zero test), so the comparison is always defined and the
`unwrap_or` never fires — over `Rat` it is plain `compare`. -/
def ramCompare (a b : Server) : Ordering := compare (ramSortKey a) (ramSortKey b)

/-- Message sent from health check tasks (`src/health.rs`,
`HealthUpdate`). -/
structure HealthUpdate where
  server_idx : Nat
  latency : Option Nat
  status : HealthStatus
  metrics : Option SystemMetrics
deriving DecidableEq, Repr

/-- The latency threshold of `src/health.rs` (`LATENCY_GOOD_MS`): above
100 ms a reachable host is Degraded. -/
def latencyGoodMs : Nat := 100

/-- Model of `Duration::as_millis` on a nanosecond count. -/
def asMillis (d : Nat) : Nat := d / 1000000

/-- Model of the probe task body of `spawn_health_check_with_semaphore`
(`src/health.rs`), parameterized by the outcomes of the two remote
executions: `latency` is the result of `check_latency` (elapsed nanoseconds
on success, `none` when the no-op command failed) and `fetched` the result
`fetch_metrics` would produce.  The body classifies the status from the
latency and attaches metrics only when the host is reachable. -/
def probeUpdate (server_idx : Nat) (latency : Option Nat)
    (fetched : Option SystemMetrics) : HealthUpdate :=
  let status := match latency with
    | some d => if asMillis d ≤ latencyGoodMs then HealthStatus.Healthy
                else HealthStatus.Degraded
    | none => HealthStatus.Unreachable
  let metrics := if status ≠ HealthStatus.Unreachable then fetched else none
  { server_idx := server_idx, latency := latency, status := status, metrics := metrics }

/-! ### Tunnel manager (`src/tunnel.rs`)

Spawned ssh forwarding children are modelled by a process table mapping a
process id to a `ProcInfo`: the current process state plus the (static)
outcomes the OS would report for `kill` and `wait` on it.  The manager's
`HashMap<u16, Tunnel>` is modelled as an association list with distinct
keys; `insert` replaces any existing binding, exactly as `HashMap::insert`
does.  Rust methods mutate `&mut self` in place, so state changes made
before an error is returned persist; every operation therefore returns the
updated world together with an optional error, rather than discarding the
state on failure. -/

/-- Lifecycle state of a spawned child process. -/
inductive ProcStatus where
  | running
  | killed
  | reaped
deriving DecidableEq, Repr, Inhabited

/-- A tracked child process: its lifecycle state and the outcomes the OS
reports for `kill` and `wait` when they are invoked on it. -/
structure ProcInfo where
  status : ProcStatus
  killFails : Bool
  waitFails : Bool
deriving DecidableEq, Repr, Inhabited

/-- An active tunnel (`src/tunnel.rs`, `Tunnel`); the owned `Child` handle
is represented by the `pid` key into the world's process table. -/
structure Tunnel where
  local_port : Nat
  remote_host : Str
  remote_port : Nat
  server_host : Str
  pid : Nat
  group_id : Option Nat
deriving DecidableEq, Repr, Inhabited

/-- Association-list lookup (model of `HashMap::get`). -/
def lookupA {α : Type _} (k : Nat) (l : List (Nat × α)) : Option α :=
  (l.find? (fun e => e.1 == k)).map (fun e => e.2)

/-- Association-list removal of a key (model of `HashMap::remove`'s effect
on the map). -/
def eraseA {α : Type _} (k : Nat) (l : List (Nat × α)) : List (Nat × α) :=
  l.filter (fun e => e.1 != k)

/-- Association-list insertion replacing any existing binding (model of
`HashMap::insert`). -/
def insertA {α : Type _} (k : Nat) (v : α) (l : List (Nat × α)) : List (Nat × α) :=
  eraseA k l ++ [(k, v)]

/-- The tunnel manager (`src/tunnel.rs`, `TunnelManager`). -/
structure TunnelManager where
  tunnels : List (Nat × Tunnel)
  port_start : Nat := 8000
  port_end : Nat := 8100
  next_group_id : Nat := 1
deriving DecidableEq, Repr, Inhabited

/-- Model of `TunnelManager::count`. -/
def TunnelManager.count (m : TunnelManager) : Nat := m.tunnels.length

/-- Model of `TunnelManager::next_group_id`. -/
def TunnelManager.nextGroupId (m : TunnelManager) : Nat × TunnelManager :=
  (m.next_group_id, { m with next_group_id := m.next_group_id + 1 })

/-- The manager together with the table of every child process spawned so
far. -/
structure TunnelWorld where
  mgr : TunnelManager
  procs : List (Nat × ProcInfo)
deriving DecidableEq, Repr, Inhabited

/-- Model of `TunnelManager::find_available_port`: scan the configured
range in ascending order, skip ports already tracked, and take the first
port the OS bind probe reports free (`osFree` is the external
`TcpListener::bind` collaborator). -/
def findAvailablePort (m : TunnelManager) (osFree : Nat → Bool) : Option Nat :=
  ((List.range (m.port_end + 1 - m.port_start)).map (fun i => m.port_start + i)).find?
    (fun p => (lookupA p m.tunnels).isNone && osFree p)

/-- Model of `TunnelManager::open_tunnel`.  `osFree` is the OS bind probe,
`spawnOk` whether the ssh child spawn succeeds, `pid` the id of the
newly spawned process and `killFails`/`waitFails` the OS outcomes attached
to it.  On success the tunnel is inserted keyed by the chosen local port —
`HashMap::insert` semantics, replacing any existing binding. -/
def openTunnelM (w : TunnelWorld) (server : Server) (remote_host : Str)
    (remote_port : Nat) (local_port : Option Nat) (group_id : Option Nat)
    (osFree : Nat → Bool) (spawnOk : Bool) (pid : Nat)
    (killFails waitFails : Bool) : TunnelWorld × Except String Nat :=
  let chosen : Except String Nat :=
    match local_port with
    | some p => Except.ok p
    | none =>
      match findAvailablePort w.mgr osFree with
      | some p => Except.ok p
      | none => Except.error "No available ports in range"
  match chosen with
  | Except.error e => (w, Except.error e)
  | Except.ok lp =>
    if spawnOk then
      let t : Tunnel :=
        { local_port := lp, remote_host := remote_host, remote_port := remote_port,
          server_host := server.host, pid := pid, group_id := group_id }
      let pinfo : ProcInfo :=
        { status := ProcStatus.running, killFails := killFails, waitFails := waitFails }
      ({ mgr := { w.mgr with tunnels := insertA lp t w.mgr.tunnels },
         procs := w.procs ++ [(pid, pinfo)] }, Except.ok lp)
    else (w, Except.error "Failed to start SSH tunnel")

/-- Update the status of one process in the table. -/
def setProc (pid : Nat) (st : ProcStatus) (procs : List (Nat × ProcInfo)) :
    List (Nat × ProcInfo) :=
  procs.map (fun e => if e.1 = pid then (e.1, { e.2 with status := st }) else e)

/-- Model of `Tunnel::close`: kill the child, then wait for it; either step
can fail, and `?` propagates the failure, leaving later steps undone. -/
def closeProcM (pid : Nat) (procs : List (Nat × ProcInfo)) :
    List (Nat × ProcInfo) × Option String :=
  match lookupA pid procs with
  | none => (procs, none)
  | some info =>
    if info.killFails then (procs, some "Failed to kill tunnel process")
    else
      let procs1 := setProc pid ProcStatus.killed procs
      if info.waitFails then (procs1, some "Failed to wait for tunnel process")
      else (setProc pid ProcStatus.reaped procs1, none)

/-- Model of `TunnelManager::close_tunnel`: remove the binding first, then
close the removed tunnel; an untracked port is a success with no change.
The removal persists even when the close step fails. -/
def closeTunnelM (p : Nat) (w : TunnelWorld) : TunnelWorld × Option String :=
  match lookupA p w.mgr.tunnels with
  | none => (w, none)
  | some t =>
    let w1 : TunnelWorld := { w with mgr := { w.mgr with tunnels := eraseA p w.mgr.tunnels } }
    let r := closeProcM t.pid w1.procs
    ({ w1 with procs := r.1 }, r.2)

/-- Close the listed ports in order, stopping at the first error (the `?`
in the source loops), keeping all state changes made so far. -/
def closeListM (ports : List Nat) (w : TunnelWorld) : TunnelWorld × Option String :=
  match ports with
  | [] => (w, none)
  | p :: rest =>
    match closeTunnelM p w with
    | (w1, some e) => (w1, some e)
    | (w1, none) => closeListM rest w1

/-- Model of `TunnelManager::close_all`. -/
def closeAllM (w : TunnelWorld) : TunnelWorld × Option String :=
  closeListM (w.mgr.tunnels.map (fun e => e.1)) w

/-- Model of `TunnelManager::close_group`: collect the group's ports, close
each, and report how many ports were collected. -/
def closeGroupM (gid : Nat) (w : TunnelWorld) : TunnelWorld × Except String Nat :=
  let ports := (w.mgr.tunnels.filter (fun e => e.2.group_id == some gid)).map (fun e => e.1)
  let r := closeListM ports w
  (r.1, match r.2 with
        | some e => Except.error e
        | none => Except.ok ports.length)

/-- A display item for the tunnel list (`src/tunnel.rs`,
`TunnelDisplayItem`). -/
inductive TunnelDisplayItem where
  | Single (local_port : Nat) (remote_host : Str) (remote_port : Nat) (server_host : Str)
  | Group (group_id : Nat) (local_port_start : Nat) (local_port_end : Nat)
      (remote_host : Str) (remote_port_start : Nat) (remote_port_end : Nat)
      (server_host : Str) (count : Nat)
deriving DecidableEq, Repr, Inhabited

/-- The sort key of the final `sort_by_key` in `get_display_items`: an
item's first local port. -/
def firstPort : TunnelDisplayItem → Nat
  | TunnelDisplayItem.Single lp _ _ _ => lp
  | TunnelDisplayItem.Group _ lps _ _ _ _ _ _ => lps

/-- Stable insertion of an element into a list sorted by a `Nat` key. -/
def insertByKey {α : Type _} (key : α → Nat) (a : α) : List α → List α
  | [] => [a]
  | b :: bs => if key a ≤ key b then a :: b :: bs else b :: insertByKey key a bs

/-- Stable sort by a `Nat` key (model of Rust's stable `sort_by_key`). -/
def sortByKey {α : Type _} (key : α → Nat) : List α → List α
  | [] => []
  | a :: as => insertByKey key a (sortByKey key as)

/-- Model of `BTreeMap::entry(gid).or_default().push(t)` on an
ascending-key association list, with the new tunnel placed before the
members found later in the scan (the scan below recurses from the front,
so prepending reproduces the source's push-in-iteration-order). -/
def addToGroup (gid : Nat) (t : Tunnel) :
    List (Nat × List Tunnel) → List (Nat × List Tunnel)
  | [] => [(gid, [t])]
  | (g, ts) :: rest =>
    if gid = g then (g, t :: ts) :: rest
    else if gid < g then (gid, [t]) :: (g, ts) :: rest
    else (g, ts) :: addToGroup gid t rest

/-- The partitioning loop of `get_display_items`: ungrouped tunnels become
`Single` items in iteration order; grouped tunnels accumulate per group id
in a `BTreeMap`, keeping iteration order inside each group. -/
def splitTunnels : List Tunnel → List TunnelDisplayItem × List (Nat × List Tunnel)
  | [] => ([], [])
  | t :: rest =>
    let r := splitTunnels rest
    match t.group_id with
    | none =>
      (TunnelDisplayItem.Single t.local_port t.remote_host t.remote_port t.server_host
        :: r.1, r.2)
    | some g => (r.1, addToGroup g t r.2)

/-- The group summary built by `get_display_items` from one `BTreeMap`
entry: span from the first to the last member (the member list is in
ascending local-port order), with the member count; an empty entry is
skipped. -/
def mkGroupItem (g : Nat) (ts : List Tunnel) : Option TunnelDisplayItem :=
  match ts with
  | [] => none
  | t0 :: rest =>
    let lastT := (t0 :: rest).getLast (List.cons_ne_nil t0 rest)
    some (TunnelDisplayItem.Group g t0.local_port lastT.local_port t0.remote_host
      t0.remote_port lastT.remote_port t0.server_host (t0 :: rest).length)

/-- Model of `TunnelManager::get_display_items` (`src/tunnel.rs`): sort the
tracked tunnels by local port, emit `Single` items for ungrouped tunnels
and one collapsed `Group` item per group id, and sort the result by each
item's first local port. -/
def getDisplayItems (tunnels : List (Nat × Tunnel)) : List TunnelDisplayItem :=
  let sorted := sortByKey (fun t => t.local_port) (tunnels.map (fun e => e.2))
  let r := splitTunnels sorted
  sortByKey firstPort (r.1 ++ r.2.filterMap (fun e => mkGroupItem e.1 e.2))

/-- Model of `TunnelManager::display_count`. -/
def displayCount (tunnels : List (Nat × Tunnel)) : Nat := (getDisplayItems tunnels).length

/-- Spec-side reference: the `Single` item of one ungrouped tunnel. -/
def specSingleItem (t : Tunnel) : TunnelDisplayItem :=
  TunnelDisplayItem.Single t.local_port t.remote_host t.remote_port t.server_host

/-- Spec-side reference: the collapsed summary of one tunnel group.  Its
local-port span runs from the group's minimum to its maximum local port;
its remote-port span runs from the remote port of the minimum-local-port
member to the remote port of the maximum-local-port member (the first and
last members in ascending local-port order); its count is the number of
members. -/
def specGroupItem (g : Nat) (ms : List Tunnel) : Option TunnelDisplayItem :=
  match sortByKey (fun t => t.local_port) ms with
  | [] => none
  | m0 :: rest =>
    let lastM := (m0 :: rest).getLast (List.cons_ne_nil m0 rest)
    some (TunnelDisplayItem.Group g
      (((ms.map (fun t => t.local_port)).min?).getD 0)
      (((ms.map (fun t => t.local_port)).max?).getD 0)
      m0.remote_host m0.remote_port lastM.remote_port m0.server_host ms.length)

/-- Spec-side reference: the unordered bag of expected display items — one
`Single` per ungrouped tunnel and one collapsed `Group` per group id
occurring among the tracked tunnels. -/
def specDisplayBag (tunnels : List (Nat × Tunnel)) : List TunnelDisplayItem :=
  let ts := tunnels.map (fun e => e.2)
  (ts.filter (fun t => t.group_id == none)).map specSingleItem
    ++ ((sortByKey id (ts.filterMap (fun t => t.group_id))).dedup).filterMap
      (fun g => specGroupItem g (ts.filter (fun t => t.group_id == some g)))

/-! ### Concrete scenarios used by the counterexamples and witnesses -/

/-- A fresh tunnel world: no tracked tunnels, no spawned processes. -/
def emptyTunnelWorld : TunnelWorld := { mgr := { tunnels := [] }, procs := [] }

/-- A sample origin server. -/
def dbServer : Server := { host := "db-host".toList, hostname := "db.example.com".toList }

/-- A sample tunnel entry. -/
def sampleTunnel (lp rp pid : Nat) (gid : Option Nat) : Tunnel :=
  { local_port := lp, remote_host := "localhost".toList, remote_port := rp,
    server_host := "db-host".toList, pid := pid, group_id := gid }

/-- A sample process-table entry. -/
def sampleProc (st : ProcStatus) (kf wf : Bool) : ProcInfo :=
  { status := st, killFails := kf, waitFails := wf }

/-- First step of the duplicate-explicit-port scenario: open a tunnel at
explicit local port 8000, spawning child process 1. -/
def leakStep1 : TunnelWorld × Except String Nat :=
  openTunnelM emptyTunnelWorld dbServer "localhost".toList 5432 (some 8000) none
    (fun _ => false) true 1 false false

/-- Second step: open another tunnel at the same explicit local port 8000,
spawning child process 2, while port 8000 is still tracked. -/
def leakStep2 : TunnelWorld × Except String Nat :=
  openTunnelM leakStep1.1 dbServer "localhost".toList 5432 (some 8000) none
    (fun _ => false) true 2 false false

/-- A world with one tracked tunnel whose child process refuses to die:
`kill` reports an error. -/
def stuckWorld : TunnelWorld :=
  { mgr := { tunnels := [(8000, sampleTunnel 8000 5432 1 none)] },
    procs := [(1, sampleProc ProcStatus.running true false)] }

/-- A world with two tracked tunnels whose children close normally. -/
def healthyPairWorld : TunnelWorld :=
  { mgr := { tunnels := [(8000, sampleTunnel 8000 5432 1 none),
                         (8001, sampleTunnel 8001 5433 2 none)] },
    procs := [(1, sampleProc ProcStatus.running false false),
              (2, sampleProc ProcStatus.running false false)] }

/-- Two tunnels opened as one group whose remote ports descend as the local
ports ascend. -/
def descendingGroupTunnels : List (Nat × Tunnel) :=
  [(8001, sampleTunnel 8001 80 11 (some 1)), (8000, sampleTunnel 8000 90 12 (some 1))]

/-! ### Bulk health scan concurrency (`src/health.rs`)

`spawn_all_health_checks` spawns one task per host, each running the body
of `spawn_health_check_with_semaphore` with a shared tokio counting
semaphore of capacity `MAX_CONCURRENT_CHECKS = 5`.  A task first awaits
`sem.acquire()`, then performs its remote commands (`check_latency`,
`fetch_metrics`), then sends its update and drops the permit.  The scan is
modelled as a transition system over the tasks' phases; the semaphore's
documented contract is that `acquire` completes only while fewer than
`capacity` permits are outstanding, and remote commands are issued only in
the permit-holding phase — between the acquire and the drop. -/

/-- Phase of one probe task during a bulk scan: spawned and awaiting a
permit, holding a permit while performing its remote commands, or finished
with the permit dropped. -/
inductive ProbePhase where
  | waiting
  | running
  | done
deriving DecidableEq, Repr, Inhabited

/-- Number of tasks currently holding a semaphore permit. -/
def runningCount (s : List ProbePhase) : Nat :=
  (s.filter (fun p => p == ProbePhase.running)).length

/-- `MAX_CONCURRENT_CHECKS` (`src/health.rs`). -/
def maxConcurrentChecks : Nat := 5

/-- One scheduler step of a bulk scan: a waiting task's `acquire` completes
only while fewer than `maxConcurrentChecks` permits are held; a running
task finishes its remote commands and drops its permit. -/
inductive ScanStep : List ProbePhase → List ProbePhase → Prop where
  | acquire (s : List ProbePhase) (i : Nat) (h : s[i]? = some ProbePhase.waiting)
      (hcap : runningCount s < maxConcurrentChecks) :
      ScanStep s (s.set i ProbePhase.running)
  | finish (s : List ProbePhase) (i : Nat) (h : s[i]? = some ProbePhase.running) :
      ScanStep s (s.set i ProbePhase.done)

/-- The start of a bulk scan over `n` hosts: `spawn_all_health_checks`
spawns one task per host, each initially awaiting the shared semaphore. -/
def initScan (n : Nat) : List ProbePhase := List.replicate n ProbePhase.waiting

/-- States a bulk scan can be in after any interleaving of scheduler
steps. -/
inductive ScanReachableFrom (s0 : List ProbePhase) : List ProbePhase → Prop where
  | refl : ScanReachableFrom s0 s0
  | step {s s2 : List ProbePhase} :
      ScanReachableFrom s0 s → ScanStep s s2 → ScanReachableFrom s0 s2

/-! ### Application state and key-event dispatch (`src/app.rs`, `src/tui/event.rs`)

The `App` structure and its methods are embedded from `src/app.rs`.  The
snapshot of `src/app.rs` in this repository predates `src/tui/event.rs`:
the dispatcher also uses `display_order_servers`, the install-menu fields
(`is_showing_install_menu`, `install_menu_selection`) and the mosh toggle
(`use_mosh`, `toggle_mosh`), which are declared nowhere under `src/`.
Those parts are modelled from the spec and marked as such below. -/

/-- View mode for the TUI (`src/app.rs`, `ViewMode`). -/
inductive ViewMode where
  | ServerList
  | GroupList
  | ServerDetails
  | CommandOutput
  | Tunnels
  | Help
deriving DecidableEq, Repr, Inhabited

/-- Sort order for the server list (`src/app.rs`, `SortOrder`). -/
inductive SortOrder where
  | Name
  | Favorites
  | RecentlyUsed
  | Latency
  | CpuUsage
  | RamUsage
  | Group
deriving DecidableEq, Repr, Inhabited

/-- The sort-order cycle of `App::cycle_sort_order`. -/
def nextSortOrder : SortOrder → SortOrder
  | SortOrder.Name => SortOrder.Favorites
  | SortOrder.Favorites => SortOrder.RecentlyUsed
  | SortOrder.RecentlyUsed => SortOrder.Latency
  | SortOrder.Latency => SortOrder.CpuUsage
  | SortOrder.CpuUsage => SortOrder.RamUsage
  | SortOrder.RamUsage => SortOrder.Group
  | SortOrder.Group => SortOrder.Name

/-- A server group (`src/server.rs`, `ServerGroup`): a name plus indices
into the main server list. -/
structure ServerGroup where
  name : Str
  servers : List Nat
deriving DecidableEq, Repr, Inhabited

/-- One host's connection history (`src/history.rs`, `HistoryEntry`);
`DateTime<Utc>` is modelled as a timestamp. -/
structure HistoryEntry where
  last_connected : Nat
  connect_count : Nat
deriving DecidableEq, Repr, Inhabited

/-- Connection history (`src/history.rs`, `History`): per-host entries, a
favorite set and the persisted sort order. -/
structure History where
  entries : List (Str × HistoryEntry) := []
  favorites : List Str := []
  sort_order : Str := []
deriving DecidableEq, Repr, Inhabited

/-- Model of `History::is_favorite`. -/
def History.is_favorite (h : History) (host : Str) : Bool := h.favorites.contains host

/-- Model of `History::last_connected`. -/
def History.last_connected (h : History) (host : Str) : Option Nat :=
  (h.entries.find? (fun e => e.1 == host)).map (fun e => e.2.last_connected)

/-- Model of `History::toggle_favorite` (`HashSet` insert/remove). -/
def History.toggle_favorite (h : History) (host : Str) : History :=
  if h.favorites.contains host then
    { h with favorites := h.favorites.filter (fun f => f != host) }
  else { h with favorites := h.favorites ++ [host] }

/-- Lexicographic comparison of strings, the model of Rust `String::cmp`
(UTF-8 byte order coincides with scalar-value order). -/
def strCompare : Str → Str → Ordering
  | [], [] => Ordering.eq
  | [], _ :: _ => Ordering.lt
  | _ :: _, [] => Ordering.gt
  | a :: as, b :: bs =>
    match compare a b with
    | Ordering.eq => strCompare as bs
    | o => o

/-- The value `u64::MAX`, used by the latency comparator for hosts without
a measured latency. -/
def u64Max : Nat := 2 ^ 64 - 1

/-- The comparators of `App::sort_servers` (`src/app.rs`), one per sort
order; `f32` keys are modelled over `Rat` (never NaN on these paths, so
`partial_cmp(..).unwrap_or(Equal)` is plain `compare`). -/
def serverCmp (h : History) (ord : SortOrder) (a b : Server) : Ordering :=
  match ord with
  | SortOrder.Name => strCompare a.host b.host
  | SortOrder.Favorites =>
    match h.is_favorite b.host, h.is_favorite a.host with
    | true, false => Ordering.gt
    | false, true => Ordering.lt
    | _, _ => strCompare a.host b.host
  | SortOrder.RecentlyUsed =>
    match h.last_connected b.host, h.last_connected a.host with
    | some bt, some at2 => compare bt at2
    | some _, none => Ordering.lt
    | none, some _ => Ordering.gt
    | none, none => strCompare a.host b.host
  | SortOrder.Latency =>
    compare (a.latency_ms.getD u64Max) (b.latency_ms.getD u64Max)
  | SortOrder.CpuUsage =>
    compare ((a.metrics.map (fun m => m.cpu_usage)).getD f32Max)
      ((b.metrics.map (fun m => m.cpu_usage)).getD f32Max)
  | SortOrder.RamUsage => ramCompare a b
  | SortOrder.Group =>
    match strCompare (a.group.getD []) (b.group.getD []) with
    | Ordering.eq => strCompare a.host b.host
    | o => o

/-- Stable insertion into a list sorted by a comparator (model of Rust's
stable `sort_by`). -/
def insertByOrd {α : Type _} (cmp : α → α → Ordering) (a : α) : List α → List α
  | [] => [a]
  | b :: bs =>
    match cmp a b with
    | Ordering.gt => b :: insertByOrd cmp a bs
    | _ => a :: b :: bs

/-- Stable sort by a comparator (model of Rust's stable `sort_by`). -/
def sortByOrd {α : Type _} (cmp : α → α → Ordering) : List α → List α
  | [] => []
  | a :: as => insertByOrd cmp a (sortByOrd cmp as)

/-- The application state (`src/app.rs`, `App`).  `status_message_time` is
an `Instant` whose only observable use on these paths is presence, modelled
as a unit option.  The final three fields are used by the dispatcher and UI
but absent from the `src/app.rs` snapshot; modelled from the spec (the
install-menu selection is one of the mutually-exclusive modal buffers, and
the fast-transport toggle is a plain flag). -/
structure App where
  servers : List Server := []
  groups : List ServerGroup := []
  selected_index : Nat := 0
  selected_group : Nat := 0
  view_mode : ViewMode := ViewMode.ServerList
  sort_order : SortOrder := SortOrder.Name
  filter_text : Str := []
  is_filtering : Bool := false
  should_quit : Bool := false
  status_message : Option Str := none
  status_message_time : Option Unit := none
  is_fetching : Bool := false
  history : History := {}
  is_entering_command : Bool := false
  command_text : Str := []
  command_output : Option Str := none
  command_server : Option Str := none
  is_running_command : Bool := false
  is_entering_pipe : Bool := false
  pipe_text : Str := []
  is_saving_output : Bool := false
  save_path : Str := []
  tunnel_manager : TunnelManager := { tunnels := [] }
  is_entering_tunnel : Bool := false
  tunnel_input : Str := []
  selected_tunnel : Nat := 0
  is_showing_install_menu : Bool := false
  install_menu_selection : Nat := 0
  use_mosh : Bool := false
deriving Repr, Inhabited

/-- Model of `App::new`. -/
def App.new : App := {}

/-- Model of `App::set_status`. -/
def App.set_status (app : App) (msg : Str) : App :=
  { app with status_message := some msg, status_message_time := some () }

/-- Model of `App::start_command_input`. -/
def App.start_command_input (app : App) : App :=
  { app with is_entering_command := true, command_text := [] }

/-- Model of `App::stop_command_input`. -/
def App.stop_command_input (app : App) : App := { app with is_entering_command := false }

/-- Model of `App::command_push`. -/
def App.command_push (app : App) (c : Char) : App :=
  { app with command_text := app.command_text ++ [c] }

/-- Model of `App::command_pop`. -/
def App.command_pop (app : App) : App := { app with command_text := app.command_text.dropLast }

/-- Model of `App::start_pipe_input`. -/
def App.start_pipe_input (app : App) : App :=
  { app with is_entering_pipe := true, pipe_text := [] }

/-- Model of `App::stop_pipe_input`. -/
def App.stop_pipe_input (app : App) : App := { app with is_entering_pipe := false }

/-- Model of `App::pipe_push`. -/
def App.pipe_push (app : App) (c : Char) : App :=
  { app with pipe_text := app.pipe_text ++ [c] }

/-- Model of `App::pipe_pop`. -/
def App.pipe_pop (app : App) : App := { app with pipe_text := app.pipe_text.dropLast }

/-- Model of `App::start_save_input`. -/
def App.start_save_input (app : App) : App :=
  { app with is_saving_output := true, save_path := [] }

/-- Model of `App::stop_save_input`. -/
def App.stop_save_input (app : App) : App := { app with is_saving_output := false }

/-- Model of `App::save_path_push`. -/
def App.save_path_push (app : App) (c : Char) : App :=
  { app with save_path := app.save_path ++ [c] }

/-- Model of `App::save_path_pop`. -/
def App.save_path_pop (app : App) : App := { app with save_path := app.save_path.dropLast }

/-- Model of `App::start_tunnel_input`. -/
def App.start_tunnel_input (app : App) : App :=
  { app with is_entering_tunnel := true, tunnel_input := [] }

/-- Model of `App::stop_tunnel_input`. -/
def App.stop_tunnel_input (app : App) : App := { app with is_entering_tunnel := false }

/-- Model of `App::tunnel_input_push`. -/
def App.tunnel_input_push (app : App) (c : Char) : App :=
  { app with tunnel_input := app.tunnel_input ++ [c] }

/-- Model of `App::tunnel_input_pop`. -/
def App.tunnel_input_pop (app : App) : App :=
  { app with tunnel_input := app.tunnel_input.dropLast }

/-- Model of `App::start_filtering`. -/
def App.start_filtering (app : App) : App :=
  { app with is_filtering := true, filter_text := [] }

/-- Model of `App::stop_filtering`. -/
def App.stop_filtering (app : App) : App := { app with is_filtering := false }

/-- Model of `App::filter_push`. -/
def App.filter_push (app : App) (c : Char) : App :=
  { app with filter_text := app.filter_text ++ [c], selected_index := 0 }

/-- Model of `App::filter_pop`. -/
def App.filter_pop (app : App) : App :=
  { app with filter_text := app.filter_text.dropLast, selected_index := 0 }

/-- Model of `App::filter_clear`. -/
def App.filter_clear (app : App) : App :=
  { app with filter_text := [], selected_index := 0 }

/-- Modelled from the spec: `App::toggle_mosh` (absent from the
`src/app.rs` snapshot) flips the fast-transport connection toggle. -/
def App.toggle_mosh (app : App) : App := { app with use_mosh := !app.use_mosh }

/-- Model of `App::filtered_servers` applied to the app state. -/
def App.filteredServersOf (compile : RegexCompile) (app : App) : List Nat :=
  filteredServers compile app.servers app.filter_text

/-- Modelled from the spec: `App::display_order_servers` (absent from the
`src/app.rs` snapshot) returns the filtered server indices in the order the
list is displayed; selection positions index into it. -/
def App.display_order_servers (compile : RegexCompile) (app : App) : List Nat :=
  App.filteredServersOf compile app

/-- Model of `App::select_previous` (bounds-saturating; the count follows
the current view). -/
def App.select_previous (compile : RegexCompile) (app : App) : App :=
  let count :=
    match app.view_mode with
    | ViewMode.ServerList => (App.filteredServersOf compile app).length
    | ViewMode.GroupList => app.groups.length
    | _ => 0
  if count > 0 then
    match app.view_mode with
    | ViewMode.ServerList => { app with selected_index := app.selected_index - 1 }
    | ViewMode.GroupList => { app with selected_group := app.selected_group - 1 }
    | _ => app
  else app

/-- Model of `App::select_next`. -/
def App.select_next (compile : RegexCompile) (app : App) : App :=
  let count :=
    match app.view_mode with
    | ViewMode.ServerList => (App.filteredServersOf compile app).length
    | ViewMode.GroupList => app.groups.length
    | _ => 0
  if count > 0 then
    match app.view_mode with
    | ViewMode.ServerList =>
      if app.selected_index < count - 1 then
        { app with selected_index := app.selected_index + 1 }
      else app
    | ViewMode.GroupList =>
      if app.selected_group < count - 1 then
        { app with selected_group := app.selected_group + 1 }
      else app
    | _ => app
  else app

/-- Model of `App::sort_servers`: stable sort with the comparator of the
current sort order, consulting the history. -/
def App.sort_servers (app : App) : App :=
  { app with servers := sortByOrd (serverCmp app.history app.sort_order) app.servers }

/-- Model of `App::cycle_sort_order`: advance the order, then re-sort. -/
def App.cycle_sort_order (app : App) : App :=
  App.sort_servers { app with sort_order := nextSortOrder app.sort_order }

/-- Model of `App::toggle_selected_favorite`: the host is identified by
name, so a later re-sort can restore it. -/
def App.toggle_selected_favorite (compile : RegexCompile) (app : App) : App :=
  match (App.filteredServersOf compile app).get? app.selected_index with
  | some idx =>
    { app with history :=
        History.toggle_favorite app.history ((app.servers.getD idx default).host) }
  | none => app

/-- Key codes used by the dispatcher (`crossterm::event::KeyCode`); the
character constructor is named `CharKey` to avoid clashing with `Char`.
`Other` stands for every key the handlers ignore. -/
inductive KeyCode where
  | CharKey (c : Char)
  | Esc
  | Enter
  | Backspace
  | Up
  | Down
  | Home
  | End
  | PageUp
  | PageDown
  | Delete
  | Other
deriving DecidableEq, Repr, Inhabited

/-- A key event: the code plus whether the CONTROL modifier is held. -/
structure KeyEvent where
  code : KeyCode
  ctrl : Bool := false
deriving DecidableEq, Repr, Inhabited

/-- Result of handling an event (`src/tui/event.rs`, `HandleResult`). -/
inductive HandleResult where
  | Continue
  | LaunchSsh (idx : Nat)
  | RefreshAll
  | RefreshServer (idx : Nat)
  | ToggleFavorite
  | SortOrderChanged
  | RunCommand (idx : Nat) (cmd : Str)
  | CopyToClipboard
  | SaveToFile (path : Str)
  | PipeToCommand (cmd : Str)
  | OpenTunnel (idx : Nat) (tspec : Str)
  | CloseTunnel (port : Nat)
  | CloseTunnelGroup (gid : Nat)
  | CloseAllTunnels
  | InstallMoshLocally
  | InstallMoshOnServer (idx : Nat)
  | InstallMoshOnAllServers
deriving Repr, Inhabited

/-- The text of `get_install_instructions` (`src/ssh/mosh.rs`),
abbreviated: the handlers only store it, its content is display glue. -/
def getInstallInstructions : Str := "Install mosh on your system:".toList

/-- Model of `handle_filter_input` (`src/tui/event.rs`). -/
def handleFilterInput (app : App) (key : KeyEvent) : App × HandleResult :=
  match key.code with
  | KeyCode.Esc => (App.filter_clear (App.stop_filtering app), HandleResult.Continue)
  | KeyCode.Enter => (App.stop_filtering app, HandleResult.Continue)
  | KeyCode.Backspace => (App.filter_pop app, HandleResult.Continue)
  | KeyCode.CharKey c => (App.filter_push app c, HandleResult.Continue)
  | _ => (app, HandleResult.Continue)

/-- Model of `handle_command_input`.  `self.servers[idx]` is in range
whenever `idx` comes from the display order; the embedding uses the
defaulted access. -/
def handleCommandInput (compile : RegexCompile) (app : App) (key : KeyEvent) :
    App × HandleResult :=
  match key.code with
  | KeyCode.Esc => (App.stop_command_input app, HandleResult.Continue)
  | KeyCode.Enter =>
    if app.command_text ≠ [] then
      match (App.display_order_servers compile app).get? app.selected_index with
      | some idx =>
        let cmd := app.command_text
        let app1 := App.stop_command_input app
        ({ app1 with command_server := some ((app.servers.getD idx default).host) },
          HandleResult.RunCommand idx cmd)
      | none => (App.stop_command_input app, HandleResult.Continue)
    else (App.stop_command_input app, HandleResult.Continue)
  | KeyCode.Backspace => (App.command_pop app, HandleResult.Continue)
  | KeyCode.CharKey c => (App.command_push app c, HandleResult.Continue)
  | _ => (app, HandleResult.Continue)

/-- Model of `handle_pipe_input`. -/
def handlePipeInput (app : App) (key : KeyEvent) : App × HandleResult :=
  match key.code with
  | KeyCode.Esc => (App.stop_pipe_input app, HandleResult.Continue)
  | KeyCode.Enter =>
    if app.pipe_text ≠ [] then
      (App.stop_pipe_input app, HandleResult.PipeToCommand app.pipe_text)
    else (App.stop_pipe_input app, HandleResult.Continue)
  | KeyCode.Backspace => (App.pipe_pop app, HandleResult.Continue)
  | KeyCode.CharKey c => (App.pipe_push app c, HandleResult.Continue)
  | _ => (app, HandleResult.Continue)

/-- Model of `handle_save_input`. -/
def handleSaveInput (app : App) (key : KeyEvent) : App × HandleResult :=
  match key.code with
  | KeyCode.Esc => (App.stop_save_input app, HandleResult.Continue)
  | KeyCode.Enter =>
    if app.save_path ≠ [] then
      (App.stop_save_input app, HandleResult.SaveToFile app.save_path)
    else (App.stop_save_input app, HandleResult.Continue)
  | KeyCode.Backspace => (App.save_path_pop app, HandleResult.Continue)
  | KeyCode.CharKey c => (App.save_path_push app c, HandleResult.Continue)
  | _ => (app, HandleResult.Continue)

/-- Model of `handle_tunnel_input`. -/
def handleTunnelInput (compile : RegexCompile) (app : App) (key : KeyEvent) :
    App × HandleResult :=
  match key.code with
  | KeyCode.Esc => (App.stop_tunnel_input app, HandleResult.Continue)
  | KeyCode.Enter =>
    if app.tunnel_input ≠ [] then
      match (App.display_order_servers compile app).get? app.selected_index with
      | some idx =>
        (App.stop_tunnel_input app, HandleResult.OpenTunnel idx app.tunnel_input)
      | none => (App.stop_tunnel_input app, HandleResult.Continue)
    else (App.stop_tunnel_input app, HandleResult.Continue)
  | KeyCode.Backspace => (App.tunnel_input_pop app, HandleResult.Continue)
  | KeyCode.CharKey c => (App.tunnel_input_push app c, HandleResult.Continue)
  | _ => (app, HandleResult.Continue)

/-- ASCII lowercase test (`char::is_ascii_lowercase`). -/
def isAsciiLowercase (c : Char) : Bool := 'a' ≤ c && c ≤ 'z'

/-- ASCII digit test (`char::is_ascii_digit`). -/
def isAsciiDigit (c : Char) : Bool := '0' ≤ c && c ≤ '9'

/-- The lowercase keys reserved by `handle_server_list_input`'s shortcut
guard. -/
def reservedShortcutKeys : List Char :=
  ['s', 'j', 'k', 'n', 'q', 'r', 'd', 'g', 'f', 'c', 't', 'm']

/-- Model of `handle_server_list_input` (`src/tui/event.rs`).  The `Char`
arms are translated, in the source's arm order, into a character dispatch
chain; arms the guard excludes fall through exactly as in the source. -/
def handleServerListInput (compile : RegexCompile) (app : App) (key : KeyEvent) :
    App × HandleResult :=
  match key.code with
  | KeyCode.Up => (App.select_previous compile app, HandleResult.Continue)
  | KeyCode.Down => (App.select_next compile app, HandleResult.Continue)
  | KeyCode.Enter =>
    match (App.display_order_servers compile app).get? app.selected_index with
    | some idx => (app, HandleResult.LaunchSsh idx)
    | none => (app, HandleResult.Continue)
  | KeyCode.Home => ({ app with selected_index := 0 }, HandleResult.Continue)
  | KeyCode.End =>
    let count := (App.display_order_servers compile app).length
    (if count > 0 then { app with selected_index := count - 1 } else app,
      HandleResult.Continue)
  | KeyCode.PageUp =>
    ({ app with selected_index := app.selected_index - 10 }, HandleResult.Continue)
  | KeyCode.PageDown =>
    let count := (App.display_order_servers compile app).length
    ({ app with selected_index := min (app.selected_index + 10) (count - 1) },
      HandleResult.Continue)
  | KeyCode.CharKey c =>
    if c = 'k' then (App.select_previous compile app, HandleResult.Continue)
    else if c = 'j' then (App.select_next compile app, HandleResult.Continue)
    else if c = '/' then (App.start_filtering app, HandleResult.Continue)
    else if c = 'n' then (App.select_next compile app, HandleResult.Continue)
    else if c = 'N' then (App.select_previous compile app, HandleResult.Continue)
    else if c = 'G' then
      ({ app with view_mode := ViewMode.GroupList, selected_group := 0 },
        HandleResult.Continue)
    else if c = 's' then (App.cycle_sort_order app, HandleResult.SortOrderChanged)
    else if c = 'f' then (app, HandleResult.ToggleFavorite)
    else if c = 'c' then (App.start_command_input app, HandleResult.Continue)
    else if c = 't' then (App.start_tunnel_input app, HandleResult.Continue)
    else if c = 'T' then
      ({ app with view_mode := ViewMode.Tunnels, selected_tunnel := 0 },
        HandleResult.Continue)
    else if c = 'm' then
      let app1 := App.toggle_mosh app
      (App.set_status app1
        (if app1.use_mosh then "Connection mode: mosh".toList
         else "Connection mode: ssh".toList), HandleResult.Continue)
    else if c = 'M' then
      ({ app with is_showing_install_menu := true, install_menu_selection := 0 },
        HandleResult.Continue)
    else if isAsciiLowercase c && !(reservedShortcutKeys.contains c) then
      let idx := c.toNat - 'a'.toNat
      let order := App.display_order_servers compile app
      if idx < order.length then
        ({ app with selected_index := idx }, HandleResult.LaunchSsh (order.getD idx 0))
      else (app, HandleResult.Continue)
    else if isAsciiDigit c then
      let idx := 26 + (c.toNat - '0'.toNat)
      let order := App.display_order_servers compile app
      if idx < order.length then
        ({ app with selected_index := idx }, HandleResult.LaunchSsh (order.getD idx 0))
      else (app, HandleResult.Continue)
    else if c = 'r' then (app, HandleResult.RefreshAll)
    else if c = 'R' then
      match (App.display_order_servers compile app).get? app.selected_index with
      | some idx => (app, HandleResult.RefreshServer idx)
      | none => (app, HandleResult.Continue)
    else if c = 'd' || c = ' ' then
      ({ app with view_mode := ViewMode.ServerDetails }, HandleResult.Continue)
    else if c = '?' then
      ({ app with view_mode := ViewMode.Help }, HandleResult.Continue)
    else (app, HandleResult.Continue)
  | _ => (app, HandleResult.Continue)

/-- Model of `handle_group_list_input`. -/
def handleGroupListInput (compile : RegexCompile) (app : App) (key : KeyEvent) :
    App × HandleResult :=
  match key.code with
  | KeyCode.Up => (App.select_previous compile app, HandleResult.Continue)
  | KeyCode.Down => (App.select_next compile app, HandleResult.Continue)
  | KeyCode.Enter =>
    match app.groups.get? app.selected_group with
    | some g =>
      ({ app with
          filter_text := g.name,
          view_mode := ViewMode.ServerList,
          selected_index := 0 }, HandleResult.Continue)
    | none => (app, HandleResult.Continue)
  | KeyCode.Esc =>
    ({ app with status_message := none, view_mode := ViewMode.ServerList },
      HandleResult.Continue)
  | KeyCode.CharKey c =>
    if c = 'k' then (App.select_previous compile app, HandleResult.Continue)
    else if c = 'j' then (App.select_next compile app, HandleResult.Continue)
    else if c = 'l' then
      match app.groups.get? app.selected_group with
      | some g =>
        ({ app with
            filter_text := g.name,
            view_mode := ViewMode.ServerList,
            selected_index := 0 }, HandleResult.Continue)
      | none => (app, HandleResult.Continue)
    else if c = 'h' then
      ({ app with status_message := none, view_mode := ViewMode.ServerList },
        HandleResult.Continue)
    else if c = '?' then
      ({ app with view_mode := ViewMode.Help }, HandleResult.Continue)
    else (app, HandleResult.Continue)
  | _ => (app, HandleResult.Continue)

/-- Model of `handle_details_input`. -/
def handleDetailsInput (compile : RegexCompile) (app : App) (key : KeyEvent) :
    App × HandleResult :=
  match key.code with
  | KeyCode.Esc =>
    ({ app with status_message := none, view_mode := ViewMode.ServerList },
      HandleResult.Continue)
  | KeyCode.Enter =>
    match (App.display_order_servers compile app).get? app.selected_index with
    | some idx => (app, HandleResult.LaunchSsh idx)
    | none => (app, HandleResult.Continue)
  | KeyCode.Up => (App.select_previous compile app, HandleResult.Continue)
  | KeyCode.Down => (App.select_next compile app, HandleResult.Continue)
  | KeyCode.CharKey c =>
    if c = 'q' || c = 'd' || c = ' ' then
      ({ app with status_message := none, view_mode := ViewMode.ServerList },
        HandleResult.Continue)
    else if c = 'k' then (App.select_previous compile app, HandleResult.Continue)
    else if c = 'j' then (App.select_next compile app, HandleResult.Continue)
    else if c = 'r' || c = 'R' then
      match (App.display_order_servers compile app).get? app.selected_index with
      | some idx => (app, HandleResult.RefreshServer idx)
      | none => (app, HandleResult.Continue)
    else (app, HandleResult.Continue)
  | _ => (app, HandleResult.Continue)

/-- Model of `handle_help_input`. -/
def handleHelpInput (app : App) (key : KeyEvent) : App × HandleResult :=
  match key.code with
  | KeyCode.Esc =>
    ({ app with status_message := none, view_mode := ViewMode.ServerList },
      HandleResult.Continue)
  | KeyCode.CharKey c =>
    if c = 'q' || c = '?' then
      ({ app with status_message := none, view_mode := ViewMode.ServerList },
        HandleResult.Continue)
    else (app, HandleResult.Continue)
  | _ => (app, HandleResult.Continue)

/-- Model of `handle_command_output_input`. -/
def handleCommandOutputInput (app : App) (key : KeyEvent) : App × HandleResult :=
  match key.code with
  | KeyCode.Esc =>
    ({ app with view_mode := ViewMode.ServerList, command_output := none },
      HandleResult.Continue)
  | KeyCode.CharKey c =>
    if c = 'q' then
      ({ app with view_mode := ViewMode.ServerList, command_output := none },
        HandleResult.Continue)
    else if c = 'c' then
      ({ App.start_command_input app with view_mode := ViewMode.ServerList },
        HandleResult.Continue)
    else if c = 'y' then (app, HandleResult.CopyToClipboard)
    else if c = '>' then (App.start_save_input app, HandleResult.Continue)
    else if c = '|' then (App.start_pipe_input app, HandleResult.Continue)
    else (app, HandleResult.Continue)
  | _ => (app, HandleResult.Continue)

/-- Model of `handle_tunnels_input`. -/
def handleTunnelsInput (app : App) (key : KeyEvent) : App × HandleResult :=
  let display_items := getDisplayItems app.tunnel_manager.tunnels
  let display_count := display_items.length
  match key.code with
  | KeyCode.Esc => ({ app with view_mode := ViewMode.ServerList }, HandleResult.Continue)
  | KeyCode.Up =>
    (if app.selected_tunnel > 0 then
      { app with selected_tunnel := app.selected_tunnel - 1 }
     else app, HandleResult.Continue)
  | KeyCode.Down =>
    (if display_count > 0 && app.selected_tunnel < display_count - 1 then
      { app with selected_tunnel := app.selected_tunnel + 1 }
     else app, HandleResult.Continue)
  | KeyCode.Delete =>
    match display_items.get? app.selected_tunnel with
    | some (TunnelDisplayItem.Single lp _ _ _) => (app, HandleResult.CloseTunnel lp)
    | some (TunnelDisplayItem.Group gid _ _ _ _ _ _ _) =>
      (app, HandleResult.CloseTunnelGroup gid)
    | none => (app, HandleResult.Continue)
  | KeyCode.CharKey c =>
    if c = 'q' then
      ({ app with view_mode := ViewMode.ServerList }, HandleResult.Continue)
    else if c = 'k' then
      (if app.selected_tunnel > 0 then
        { app with selected_tunnel := app.selected_tunnel - 1 }
       else app, HandleResult.Continue)
    else if c = 'j' then
      (if display_count > 0 && app.selected_tunnel < display_count - 1 then
        { app with selected_tunnel := app.selected_tunnel + 1 }
       else app, HandleResult.Continue)
    else if c = 'd' then
      match display_items.get? app.selected_tunnel with
      | some (TunnelDisplayItem.Single lp _ _ _) => (app, HandleResult.CloseTunnel lp)
      | some (TunnelDisplayItem.Group gid _ _ _ _ _ _ _) =>
        (app, HandleResult.CloseTunnelGroup gid)
      | none => (app, HandleResult.Continue)
    else if c = 'D' then (app, HandleResult.CloseAllTunnels)
    else if c = 't' then
      (App.start_tunnel_input { app with view_mode := ViewMode.ServerList },
        HandleResult.Continue)
    else (app, HandleResult.Continue)
  | _ => (app, HandleResult.Continue)

/-- Model of `handle_install_menu_input` (4 menu items). -/
def handleInstallMenuInput (compile : RegexCompile) (app : App) (key : KeyEvent) :
    App × HandleResult :=
  match key.code with
  | KeyCode.Esc =>
    ({ app with is_showing_install_menu := false }, HandleResult.Continue)
  | KeyCode.Up =>
    (if app.install_menu_selection > 0 then
      { app with install_menu_selection := app.install_menu_selection - 1 }
     else app, HandleResult.Continue)
  | KeyCode.Down =>
    (if app.install_menu_selection < 3 then
      { app with install_menu_selection := app.install_menu_selection + 1 }
     else app, HandleResult.Continue)
  | KeyCode.Enter =>
    let app1 : App := { app with is_showing_install_menu := false }
    if app.install_menu_selection = 0 then (app1, HandleResult.InstallMoshLocally)
    else if app.install_menu_selection = 1 then
      match (App.display_order_servers compile app1).get? app1.selected_index with
      | some idx => (app1, HandleResult.InstallMoshOnServer idx)
      | none => (app1, HandleResult.Continue)
    else if app.install_menu_selection = 2 then
      (app1, HandleResult.InstallMoshOnAllServers)
    else if app.install_menu_selection = 3 then
      ({ app1 with
          command_output := some getInstallInstructions,
          command_server := some ("mosh install instructions".toList),
          view_mode := ViewMode.CommandOutput }, HandleResult.Continue)
    else (app1, HandleResult.Continue)
  | KeyCode.CharKey c =>
    if c = 'q' then
      ({ app with is_showing_install_menu := false }, HandleResult.Continue)
    else if c = 'k' then
      (if app.install_menu_selection > 0 then
        { app with install_menu_selection := app.install_menu_selection - 1 }
       else app, HandleResult.Continue)
    else if c = 'j' then
      (if app.install_menu_selection < 3 then
        { app with install_menu_selection := app.install_menu_selection + 1 }
       else app, HandleResult.Continue)
    else if c = '1' then
      ({ app with is_showing_install_menu := false }, HandleResult.InstallMoshLocally)
    else if c = '2' then
      let app1 : App := { app with is_showing_install_menu := false }
      match (App.display_order_servers compile app1).get? app1.selected_index with
      | some idx => (app1, HandleResult.InstallMoshOnServer idx)
      | none => (app1, HandleResult.Continue)
    else if c = '3' then
      ({ app with is_showing_install_menu := false },
        HandleResult.InstallMoshOnAllServers)
    else if c = '4' then
      ({ app with
          is_showing_install_menu := false,
          command_output := some getInstallInstructions,
          command_server := some ("mosh install instructions".toList),
          view_mode := ViewMode.CommandOutput }, HandleResult.Continue)
    else (app, HandleResult.Continue)
  | _ => (app, HandleResult.Continue)

/-- Model of `handle_key_event` (`src/tui/event.rs`): the modal input modes
are checked first, in priority order; only when none is active do the
global shortcuts and the per-view handlers run. -/
def handleKeyEvent (compile : RegexCompile) (app : App) (key : KeyEvent) :
    App × HandleResult :=
  if app.is_filtering then handleFilterInput app key
  else if app.is_entering_command then handleCommandInput compile app key
  else if app.is_entering_pipe then handlePipeInput app key
  else if app.is_saving_output then handleSaveInput app key
  else if app.is_entering_tunnel then handleTunnelInput compile app key
  else if app.is_showing_install_menu then handleInstallMenuInput compile app key
  else if key.code = KeyCode.CharKey 'q' || key.code = KeyCode.Esc then
    let app1 : App := { app with status_message := none }
    if app.view_mode = ViewMode.Help || app.view_mode = ViewMode.ServerDetails
        || app.view_mode = ViewMode.CommandOutput
        || app.view_mode = ViewMode.Tunnels then
      ({ app1 with view_mode := ViewMode.ServerList }, HandleResult.Continue)
    else ({ app1 with should_quit := true }, HandleResult.Continue)
  else if key.code = KeyCode.CharKey 'c' && key.ctrl then
    ({ app with should_quit := true }, HandleResult.Continue)
  else
    match app.view_mode with
    | ViewMode.ServerList => handleServerListInput compile app key
    | ViewMode.GroupList => handleGroupListInput compile app key
    | ViewMode.ServerDetails => handleDetailsInput compile app key
    | ViewMode.CommandOutput => handleCommandOutputInput app key
    | ViewMode.Tunnels => handleTunnelsInput app key
    | ViewMode.Help => handleHelpInput app key

/-- The six modal-mode flags, in the order the dispatcher checks them. -/
def modalFlags (app : App) : List Bool :=
  [app.is_filtering, app.is_entering_command, app.is_entering_pipe,
    app.is_saving_output, app.is_entering_tunnel, app.is_showing_install_menu]

/-- Number of modal input modes simultaneously active. -/
def modalCount (app : App) : Nat := (modalFlags app).count true

/-- The mutual-exclusion invariant: at most one modal mode is active. -/
def AtMostOneModal (app : App) : Prop := modalCount app ≤ 1

instance (app : App) : Decidable (AtMostOneModal app) := by
  unfold AtMostOneModal
  infer_instance

end Ggoto

namespace Ggoto

/-- Rust `char::is_whitespace`, modelled on the ASCII range (space and the
control characters `\x09`–`\x0d`); the metrics script output is ASCII. -/
def isWS (c : Char) : Bool := c = ' ' || ('\x09' ≤ c && c ≤ '\x0d')

/-- Rust `str::trim`: strip leading and trailing whitespace. -/
def trimStr (s : Str) : Str :=
  ((s.dropWhile (fun c => isWS c)).reverse.dropWhile (fun c => isWS c)).reverse

/-- Rust `str::trim_matches('=')`: strip all leading and trailing `'='`. -/
def trimEq (s : Str) : Str :=
  ((s.dropWhile (fun c => c = '=')).reverse.dropWhile (fun c => c = '=')).reverse

/-- Rust `str::split(c)`: split at every occurrence of `c`; separators at
either end and adjacent separators yield empty pieces. -/
def splitOnChar (c : Char) : Str → List Str
  | [] => [[]]
  | x :: xs =>
    match splitOnChar c xs with
    | [] => [[]]
    | y :: ys => if x = c then [] :: y :: ys else (x :: y) :: ys

/-- Helper for `splitWhitespace`: `acc` holds the current piece reversed. -/
def splitWhitespaceAux : Str → Str → List Str
  | [], acc => if acc.isEmpty then [] else [acc.reverse]
  | x :: xs, acc =>
    if isWS x then
      if acc.isEmpty then splitWhitespaceAux xs []
      else acc.reverse :: splitWhitespaceAux xs []
    else splitWhitespaceAux xs (x :: acc)

/-- Rust `str::split_whitespace`: the whitespace-separated pieces, with no
empty pieces. -/
def splitWhitespace (s : Str) : List Str := splitWhitespaceAux s []

/-- Drop a single trailing carriage return (`str::lines` treats `\r\n` as a
line terminator). -/
def stripCR (l : Str) : Str :=
  if l.getLast? = some '\r' then l.dropLast else l

/-- Rust `str::lines`: split on `'\n'`, strip the `'\r'` of a `"\r\n"`
terminator, and produce no final empty line when the input ends in a
newline.  A trailing `'\r'` not followed by `'\n'` is kept. -/
def rustLines (s : Str) : List Str :=
  match (splitOnChar '\n' s).reverse with
  | [] => []
  | lastSeg :: revInit =>
    let init := revInit.reverse.map stripCR
    if lastSeg.isEmpty then init else init ++ [lastSeg]

/-- The effect of one non-marker (already trimmed) line on the metrics
under the current section: the `match section` arms of
`parse_metrics_output` (`src/health.rs`).  `pu32`, `pu64` and `pf32` stand
for Rust `str::parse::<u32>`, `::<u64>` and `::<f32>`; the GPU memory
figures are mebibytes scaled to bytes by the `u64` product
`* 1024 * 1024` (hence `% 2 ^ 64`). -/
def lineUpdate (pu32 pu64 : Str → Option Nat) (pf32 : Str → Option Rat)
    (m : SystemMetrics) (sec line : Str) : SystemMetrics :=
  if sec = "CORES".toList then
    match pu32 line with
    | some cores => { m with cpu_cores := cores }
    | none => m
  else if sec = "CPU".toList then
    match pf32 line with
    | some cpu => { m with cpu_usage := cpu }
    | none => m
  else if sec = "MEM".toList then
    match splitWhitespace line with
    | a :: b :: _ =>
        { m with ram_total := (pu64 a).getD 0, ram_used := (pu64 b).getD 0 }
    | _ => m
  else if sec = "LOAD".toList then
    match splitOnChar ',' line with
    | a :: b :: c :: _ =>
        { m with load_average :=
            ((pf32 (trimStr a)).getD 0, (pf32 (trimStr b)).getD 0,
             (pf32 (trimStr c)).getD 0) }
    | _ => m
  else if sec = "USERS".toList then
    if line.isEmpty then m
    else { m with logged_in_users := m.logged_in_users ++ [line] }
  else if sec = "GPU".toList then
    if line.isEmpty || "rocm".toList.isPrefixOf line then m
    else
      match (splitOnChar ',' line).map trimStr with
      | a :: b :: c :: d :: _ =>
          { m with gpus := m.gpus ++
              [{ name := a, utilization := (pf32 b).getD 0,
                 memory_used := (pu64 c).getD 0 * 1024 * 1024 % 2 ^ 64,
                 memory_total := (pu64 d).getD 0 * 1024 * 1024 % 2 ^ 64 }] }
      | _ => m
  else if sec = "MOSH".toList then
    { m with has_mosh := line == "yes".toList }
  else m

/-- One step of the `for line in output.lines()` loop of
`parse_metrics_output`: trim the line, switch section on a `===` marker,
otherwise update the metrics under the current section. -/
def parseMetricsLine (pu32 pu64 : Str → Option Nat) (pf32 : Str → Option Rat)
    (st : Str × SystemMetrics) (l : Str) : Str × SystemMetrics :=
  let line := trimStr l
  if "===".toList.isPrefixOf line then (trimEq line, st.2)
  else (st.1, lineUpdate pu32 pu64 pf32 st.2 st.1 line)

/-- Model of `parse_metrics_output` (`src/health.rs`, lines 84–151): fold
the per-line step over the lines starting from `SystemMetrics::default()`
and the empty section; the function always returns `Ok`. -/
def parse_metrics_output (pu32 pu64 : Str → Option Nat)
    (pf32 : Str → Option Rat) (output : Str) : Except Str SystemMetrics :=
  Except.ok
    (((rustLines output).foldl (parseMetricsLine pu32 pu64 pf32) ([], {})).2)

/-- Spec side: each (trimmed) data line tagged with the section it belongs
to; marker lines are consumed and tag the following lines. -/
def specTaggedLines : List Str → Str → List (Str × Str)
  | [], _ => []
  | l :: ls, sec =>
    let t := trimStr l
    if "===".toList.isPrefixOf t then specTaggedLines ls (trimEq t)
    else (sec, t) :: specTaggedLines ls sec

/-- Spec side: the successfully parsed values of the `CORES` lines. -/
def specCoresVals (pu32 : Str → Option Nat) (tagged : List (Str × Str)) :
    List Nat :=
  tagged.filterMap (fun p => if p.1 = "CORES".toList then pu32 p.2 else none)

/-- Spec side: the successfully parsed values of the `CPU` lines. -/
def specCpuVals (pf32 : Str → Option Rat) (tagged : List (Str × Str)) :
    List Rat :=
  tagged.filterMap (fun p => if p.1 = "CPU".toList then pf32 p.2 else none)

/-- Spec side: the `(total, used)` pairs of the `MEM` lines that have at
least two whitespace-separated fields; each field defaults to 0 when
unparsable. -/
def specMemVals (pu64 : Str → Option Nat) (tagged : List (Str × Str)) :
    List (Nat × Nat) :=
  tagged.filterMap (fun p =>
    if p.1 = "MEM".toList then
      match splitWhitespace p.2 with
      | a :: b :: _ => some ((pu64 a).getD 0, (pu64 b).getD 0)
      | _ => none
    else none)

/-- Spec side: the load-average triples of the `LOAD` lines that have at
least three comma-separated fields; each field defaults to 0 when
unparsable. -/
def specLoadVals (pf32 : Str → Option Rat) (tagged : List (Str × Str)) :
    List (Rat × Rat × Rat) :=
  tagged.filterMap (fun p =>
    if p.1 = "LOAD".toList then
      match splitOnChar ',' p.2 with
      | a :: b :: c :: _ =>
          some ((pf32 (trimStr a)).getD 0, (pf32 (trimStr b)).getD 0,
            (pf32 (trimStr c)).getD 0)
      | _ => none
    else none)

/-- Spec side: the non-empty `USERS` lines, in order. -/
def specUsers (tagged : List (Str × Str)) : List Str :=
  tagged.filterMap (fun p =>
    if p.1 = "USERS".toList then
      if p.2.isEmpty then none else some p.2
    else none)

/-- Spec side: a GPU record from one `GPU` line — non-empty, not a
`rocm-smi` line, comma-split and trimmed into
`name, utilization, memory-used, memory-total` with at least four fields;
memory is scaled from mebibytes to bytes. -/
def specGpuOfLine (pu64 : Str → Option Nat) (pf32 : Str → Option Rat)
    (line : Str) : Option GpuInfo :=
  if line.isEmpty || "rocm".toList.isPrefixOf line then none
  else
    match (splitOnChar ',' line).map trimStr with
    | a :: b :: c :: d :: _ =>
        some { name := a, utilization := (pf32 b).getD 0,
               memory_used := (pu64 c).getD 0 * 1024 * 1024 % 2 ^ 64,
               memory_total := (pu64 d).getD 0 * 1024 * 1024 % 2 ^ 64 }
    | _ => none

/-- Spec side: the GPU records of all parsable `GPU` lines, in order. -/
def specGpus (pu64 : Str → Option Nat) (pf32 : Str → Option Rat)
    (tagged : List (Str × Str)) : List GpuInfo :=
  tagged.filterMap (fun p =>
    if p.1 = "GPU".toList then specGpuOfLine pu64 pf32 p.2 else none)

/-- Spec side: for each `MOSH` line, whether it equals `"yes"`. -/
def specMoshVals (tagged : List (Str × Str)) : List Bool :=
  tagged.filterMap (fun p =>
    if p.1 = "MOSH".toList then some (p.2 == "yes".toList) else none)

/-- Spec side: the metrics record described by the spec — every scalar
metric is the last value its section produced and keeps its previous
(default) value when the section is absent or yields no value; `USERS` and
`GPU` append. -/
def applySpec (pu32 pu64 : Str → Option Nat) (pf32 : Str → Option Rat)
    (m : SystemMetrics) (tagged : List (Str × Str)) : SystemMetrics where
  cpu_cores := (specCoresVals pu32 tagged).getLastD m.cpu_cores
  cpu_usage := (specCpuVals pf32 tagged).getLastD m.cpu_usage
  ram_total := ((specMemVals pu64 tagged).getLastD (m.ram_total, m.ram_used)).1
  ram_used := ((specMemVals pu64 tagged).getLastD (m.ram_total, m.ram_used)).2
  load_average := (specLoadVals pf32 tagged).getLastD m.load_average
  logged_in_users := m.logged_in_users ++ specUsers tagged
  gpus := m.gpus ++ specGpus pu64 pf32 tagged
  has_mosh := (specMoshVals tagged).getLastD m.has_mosh

/-- Spec side: the full record parsed tolerantly from the script output,
starting from the all-defaults record. -/
def specMetricsOf (pu32 pu64 : Str → Option Nat) (pf32 : Str → Option Rat)
    (output : Str) : SystemMetrics :=
  applySpec pu32 pu64 pf32 {} (specTaggedLines (rustLines output) [])

end Ggoto

namespace Ggoto

theorem mem_map_fst_filter_enum {α : Type _} (l : List α) (q : Nat × α → Bool) (i : Nat) :
    i ∈ (l.enum.filter q).map Prod.fst ↔ ∃ h : i < l.length, q (i, l.get ⟨i, h⟩) = true := by
  simp only [List.mem_map, List.mem_filter, List.mem_enum_iff_getElem?]
  constructor
  · rintro ⟨⟨j, a⟩, ⟨hget, hq⟩, rfl⟩
    obtain ⟨hlt, hga⟩ := List.getElem?_eq_some.mp hget
    exact ⟨hlt, by rw [show l.get ⟨j, hlt⟩ = a from hga]; exact hq⟩
  · rintro ⟨h, hq⟩
    refine ⟨(i, l.get ⟨i, h⟩), ⟨?_, hq⟩, rfl⟩
    exact List.getElem?_eq_some.mpr ⟨h, rfl⟩

theorem pairwise_map_fst_filter_enum {α : Type _} (l : List α) (q : Nat × α → Bool) :
    ((l.enum.filter q).map Prod.fst).Pairwise (· < ·) := by
  have hsub : List.Sublist ((l.enum.filter q).map Prod.fst) (l.enum.map Prod.fst) :=
    (List.filter_sublist _).map _
  rw [List.enum_map_fst] at hsub
  exact (List.pairwise_lt_range _).sublist hsub

theorem containsSub_nil (hay : Str) : containsSub hay [] = true := by
  simp [containsSub]

theorem hasRegexChars_eq_false {pat : Str} (h : ∀ c ∈ pat, c ∉ regexMetaChars) :
    hasRegexChars pat = false := by
  simp only [hasRegexChars, List.any_eq_false]
  intro c hc
  simpa using h c hc

/-- C1: for a server list and a filter pattern free of the regex
metacharacters `. * + ? ^ $ [ ] ( ) { } | \`, `filtered_servers` returns
exactly the indices, in insertion order (strictly increasing), of the
servers whose display name, connection target, or group contains the
pattern case-insensitively; the empty pattern yields all indices in
insertion order. -/
theorem filtered_servers_substring_correct (compile : RegexCompile)
    (servers : List Server) (pat : Str) (hmeta : ∀ c ∈ pat, c ∉ regexMetaChars) :
    (∀ i, i ∈ filteredServers compile servers pat ↔
        ∃ h : i < servers.length,
          serverMatchesSubstring (servers.get ⟨i, h⟩) (lowerStr pat) = true)
      ∧ (filteredServers compile servers pat).Pairwise (· < ·)
      ∧ (pat = [] → filteredServers compile servers pat = List.range servers.length) := by
  have hscan : hasRegexChars pat = false := hasRegexChars_eq_false hmeta
  by_cases hempty : pat = []
  · subst hempty
    refine ⟨?_, ?_, fun _ => ?_⟩
    · intro i
      simp [filteredServers, serverMatchesSubstring, lowerStr, containsSub_nil, containsSub]
    · simpa [filteredServers] using List.pairwise_lt_range servers.length
    · simp [filteredServers]
  · have hrw : filteredServers compile servers pat =
        (servers.enum.filter
          (fun p => serverMatchesSubstring p.2 (lowerStr pat))).map Prod.fst := by
      simp only [filteredServers, if_neg hempty, hscan, Bool.false_eq_true, if_false]
    rw [hrw]
    exact ⟨fun i => mem_map_fst_filter_enum servers _ i,
      pairwise_map_fst_filter_enum servers _, fun h => absurd h hempty⟩

/-- Witness for C1 at the specification's test vector: the pattern "ysdc"
contains no metacharacter, and index 1 (host `ysdc2`) is in the filtered
result. -/
theorem filtered_servers_substring_correct_witness :
    (∀ c ∈ ("ysdc".toList : Str), c ∉ regexMetaChars) ∧
    (1 ∈ filteredServers (fun _ => none) exampleServers "ysdc".toList ↔
      ∃ h : 1 < exampleServers.length,
        serverMatchesSubstring (exampleServers.get ⟨1, h⟩) (lowerStr "ysdc".toList) = true) :=
  ⟨by decide, (filtered_servers_substring_correct (fun _ => none) exampleServers
    "ysdc".toList (by decide)).1 1⟩

/-- C2: a filter pattern that contains a regex metacharacter but fails to
compile as a case-insensitive regular expression produces exactly the plain
case-insensitive substring-match result; an invalid pattern is never a hard
error and never makes the result empty merely for being invalid. -/
theorem filtered_servers_invalid_regex_fallback (compile : RegexCompile)
    (servers : List Server) (pat : Str) (hmeta : ∃ c ∈ pat, c ∈ regexMetaChars)
    (hfail : compile (caseInsensitiveMarker ++ pat) = none) :
    filteredServers compile servers pat = substringFilterIndices servers pat := by
  obtain ⟨c, hc, hcmeta⟩ := hmeta
  have hscan : hasRegexChars pat = true := by
    simp only [hasRegexChars, List.any_eq_true]
    exact ⟨c, hc, by simpa using hcmeta⟩
  have hempty : pat ≠ [] := by
    intro h; subst h; exact absurd hc (List.not_mem_nil c)
  simp only [filteredServers, substringFilterIndices, if_neg hempty, hscan, if_true, hfail]

/-- Witness for C2: the pattern "ysdc(" contains the metacharacter `(` and
does not compile (the collaborator returns `none`); the result equals the
plain substring match. -/
theorem filtered_servers_invalid_regex_fallback_witness :
    (∃ c ∈ ("ysdc(".toList : Str), c ∈ regexMetaChars) ∧
    filteredServers (fun _ => none) exampleServers "ysdc(".toList =
      substringFilterIndices exampleServers "ysdc(".toList :=
  ⟨by decide, filtered_servers_invalid_regex_fallback (fun _ => none) exampleServers
    "ysdc(".toList (by decide) rfl⟩

end Ggoto

namespace Ggoto

/-- C10: `ram_usage_percent` is total and never divides by zero — it
returns 0 when `ram_total = 0` and `ram_used / ram_total * 100` otherwise —
and in consequence the RAM-usage sort comparator is well-defined
(in particular, two hosts whose metrics report a zero total compare as
equal). -/
theorem ram_usage_percent_total_and_comparator :
    (∀ m : SystemMetrics,
      (m.ram_total = 0 → m.ram_usage_percent = 0) ∧
      (m.ram_total ≠ 0 →
        m.ram_usage_percent = (m.ram_used : Rat) / (m.ram_total : Rat) * 100))
    ∧ (∀ (a b : Server) (ma mb : SystemMetrics), a.metrics = some ma →
        b.metrics = some mb → ma.ram_total = 0 → mb.ram_total = 0 →
        ramCompare a b = Ordering.eq) := by
  constructor
  · intro m
    constructor
    · intro h; simp [SystemMetrics.ram_usage_percent, h]
    · intro h; simp [SystemMetrics.ram_usage_percent, h]
  · intro a b ma mb ha hb hma hmb
    have hza : ma.ram_usage_percent = 0 := by
      simp [SystemMetrics.ram_usage_percent, hma]
    have hzb : mb.ram_usage_percent = 0 := by
      simp [SystemMetrics.ram_usage_percent, hmb]
    have : ramSortKey a = 0 := by simp [ramSortKey, ha, hza]
    have hb0 : ramSortKey b = 0 := by simp [ramSortKey, hb, hzb]
    rw [ramCompare, this, hb0]
    decide

/-- Witness for C10: a metrics record with zero RAM total reports 0%, and
two hosts carrying such metrics compare as equal under the RAM-usage
comparator. -/
theorem ram_usage_percent_total_and_comparator_witness :
    (({ ram_total := 0, ram_used := 7 } : SystemMetrics).ram_total = 0 →
      ({ ram_total := 0, ram_used := 7 } : SystemMetrics).ram_usage_percent = 0) ∧
    ramCompare
      { host := "a".toList, hostname := "a".toList,
        metrics := some { ram_total := 0, ram_used := 7 } }
      { host := "b".toList, hostname := "b".toList,
        metrics := some { ram_total := 0, ram_used := 9 } } = Ordering.eq :=
  ⟨(ram_usage_percent_total_and_comparator.1 { ram_total := 0, ram_used := 7 }).1,
    ram_usage_percent_total_and_comparator.2 _ _ _ _ rfl rfl rfl rfl⟩

/-- Counterexample to C7 as stated: a measured latency of 100 500 000 ns
(100.5 ms) is strictly greater than 100 ms, yet the probe classifies the
host Healthy, because `as_millis` truncates to whole milliseconds before
the threshold comparison. -/
theorem probe_status_counterexample :
    (probeUpdate 0 (some 100500000) none).status = HealthStatus.Healthy ∧
    100 * 1000000 < 100500000 := ⟨rfl, by decide⟩

/-- C7 (amended): if the no-op remote command fails the update is
Unreachable and carries no metrics snapshot; on success the status is
Healthy exactly when the latency truncated to whole milliseconds is at most
100 (that is, latency < 101 ms) and Degraded exactly otherwise. -/
theorem probe_update_classification (idx : Nat) (latency : Option Nat)
    (fetched : Option SystemMetrics) :
    (latency = none → (probeUpdate idx latency fetched).status = HealthStatus.Unreachable ∧
      (probeUpdate idx latency fetched).metrics = none)
    ∧ (∀ d, latency = some d →
        ((probeUpdate idx latency fetched).status = HealthStatus.Healthy ↔
          asMillis d ≤ latencyGoodMs) ∧
        ((probeUpdate idx latency fetched).status = HealthStatus.Degraded ↔
          latencyGoodMs < asMillis d)) := by
  constructor
  · rintro rfl
    simp [probeUpdate]
  · rintro d rfl
    by_cases h : asMillis d ≤ latencyGoodMs
    · simp [probeUpdate, h, Nat.not_lt.mpr h]
    · simp [probeUpdate, h, Nat.lt_of_not_le h]

/-- Witness for C7: at a successful probe of 42 ms the update is Healthy,
and at a failed probe it is Unreachable without metrics. -/
theorem probe_update_classification_witness :
    ((probeUpdate 0 (some 42000000) none).status = HealthStatus.Healthy ↔
      asMillis 42000000 ≤ latencyGoodMs) ∧
    ((probeUpdate 1 none none).status = HealthStatus.Unreachable ∧
      (probeUpdate 1 none none).metrics = none) :=
  ⟨((probe_update_classification 0 (some 42000000) none).2 42000000 rfl).1,
    (probe_update_classification 1 none none).1 rfl⟩

end Ggoto

namespace Ggoto

/-- C3: evaluation at the failing input.  Opening a tunnel twice at the
same explicit local port 8000 succeeds both times; afterwards only the
second child (pid 2) is tracked, while the first child (pid 1) is still
running in the process table — it ceased to be tracked without ever being
terminated, violating the lifetime-bounding invariant the claim states. -/
theorem open_tunnel_duplicate_port_leaks_child :
    leakStep1.2 = Except.ok 8000 ∧ leakStep2.2 = Except.ok 8000 ∧
    leakStep2.1.mgr.tunnels.map (fun e => e.2.pid) = [2] ∧
    lookupA 1 leakStep2.1.procs = some (sampleProc ProcStatus.running false false) :=
  ⟨rfl, rfl, rfl, rfl⟩

/-- Counterexample to C5 as stated: on a world whose single tracked child
reports a `kill` failure, `close_all` returns an error and the child is
still running afterwards — not every previously tracked process has been
killed and waited, so the "regardless of errors" part of the claim is
false (the `?` operator aborts the loop at the first failure). -/
theorem close_all_error_leaves_child_running :
    (closeAllM stuckWorld).2 = some "Failed to kill tunnel process" ∧
    lookupA 1 (closeAllM stuckWorld).1.procs =
      some (sampleProc ProcStatus.running true false) :=
  ⟨rfl, rfl⟩

end Ggoto

namespace Ggoto

theorem lookupA_cons {α : Type _} (k : Nat) (b : Nat × α) (t : List (Nat × α)) :
    lookupA k (b :: t) = if b.1 = k then some b.2 else lookupA k t := by
  by_cases h : b.1 = k
  · simp [lookupA, List.find?_cons, h]
  · simp [lookupA, List.find?_cons, h, beq_eq_false_iff_ne.mpr h]

theorem lookupA_eq_none_iff {α : Type _} (k : Nat) (l : List (Nat × α)) :
    lookupA k l = none ↔ ∀ e ∈ l, e.1 ≠ k := by
  simp [lookupA, List.find?_eq_none]

theorem eraseA_of_lookupA_none {α : Type _} {k : Nat} {l : List (Nat × α)}
    (h : lookupA k l = none) : eraseA k l = l := by
  rw [eraseA, List.filter_eq_self]
  intro e he
  simpa [bne_iff_ne] using (lookupA_eq_none_iff k l).mp h e he

theorem mem_of_mem_eraseA {α : Type _} {k : Nat} {l : List (Nat × α)} {e : Nat × α}
    (h : e ∈ eraseA k l) : e ∈ l := List.mem_of_mem_filter h

theorem mem_eraseA_of_ne {α : Type _} {k : Nat} {l : List (Nat × α)} {e : Nat × α}
    (he : e ∈ l) (hne : e.1 ≠ k) : e ∈ eraseA k l :=
  List.mem_filter.mpr ⟨he, by simpa [bne_iff_ne] using hne⟩

theorem lookupA_of_mem_of_nodup {α : Type _} {l : List (Nat × α)}
    (hk : (l.map Prod.fst).Nodup) {e : Nat × α} (he : e ∈ l) :
    lookupA e.1 l = some e.2 := by
  induction l with
  | nil => cases he
  | cons a t ih =>
    have hk2 : (a.1 :: t.map Prod.fst).Nodup := by simpa using hk
    obtain ⟨ha, ht⟩ := List.nodup_cons.mp hk2
    rcases List.mem_cons.mp he with rfl | hmem
    · simp [lookupA_cons]
    · have hne : a.1 ≠ e.1 := by
        intro hcontra
        exact ha (hcontra ▸ List.mem_map_of_mem Prod.fst hmem)
      rw [lookupA_cons, if_neg hne]
      exact ih ht hmem

theorem setProc_cons (pid : Nat) (st : ProcStatus) (a : Nat × ProcInfo)
    (t : List (Nat × ProcInfo)) :
    setProc pid st (a :: t) =
      (if a.1 = pid then (a.1, { a.2 with status := st }) else a) :: setProc pid st t := by
  simp only [setProc, List.map_cons]

theorem lookupA_setProc_self (pid : Nat) (st : ProcStatus) (procs : List (Nat × ProcInfo)) :
    lookupA pid (setProc pid st procs) =
      (lookupA pid procs).map (fun i => { i with status := st }) := by
  induction procs with
  | nil => rfl
  | cons a t ih =>
    rw [setProc_cons]
    by_cases h : a.1 = pid
    · rw [if_pos h, lookupA_cons, lookupA_cons, if_pos h, if_pos h]
      rfl
    · rw [if_neg h, lookupA_cons, lookupA_cons, if_neg h, if_neg h]
      exact ih

theorem lookupA_setProc_ne (q pid : Nat) (st : ProcStatus) (procs : List (Nat × ProcInfo))
    (h : q ≠ pid) : lookupA q (setProc pid st procs) = lookupA q procs := by
  induction procs with
  | nil => rfl
  | cons a t ih =>
    rw [setProc_cons]
    by_cases ha : a.1 = pid
    · have haq : ¬ a.1 = q := fun hc => h (hc ▸ ha : q = pid)
      rw [if_pos ha, lookupA_cons, lookupA_cons, if_neg haq]
      simp only [if_neg haq]
      exact ih
    · by_cases haq : a.1 = q
      · rw [if_neg ha, lookupA_cons, lookupA_cons, if_pos haq, if_pos haq]
      · rw [if_neg ha, lookupA_cons, lookupA_cons, if_neg haq, if_neg haq]
        exact ih

theorem lookupA_setProc_none_iff (q pid : Nat) (st : ProcStatus)
    (procs : List (Nat × ProcInfo)) :
    lookupA q (setProc pid st procs) = none ↔ lookupA q procs = none := by
  by_cases h : q = pid
  · subst h
    rw [lookupA_setProc_self]
    simp
  · rw [lookupA_setProc_ne _ _ _ _ h]

end Ggoto

namespace Ggoto

theorem closeProcM_procs_ne (pid q : Nat) (procs : List (Nat × ProcInfo)) (h : q ≠ pid) :
    lookupA q (closeProcM pid procs).1 = lookupA q procs := by
  unfold closeProcM
  cases hl : lookupA pid procs with
  | none => rfl
  | some i =>
    by_cases hk : i.killFails
    · simp [hk]
    · by_cases hw : i.waitFails
      · simp [hk, hw, lookupA_setProc_ne _ _ _ _ h]
      · simp [hk, hw, lookupA_setProc_ne _ _ _ _ h]

theorem closeProcM_none_iff (pid q : Nat) (procs : List (Nat × ProcInfo)) :
    lookupA q (closeProcM pid procs).1 = none ↔ lookupA q procs = none := by
  unfold closeProcM
  cases hl : lookupA pid procs with
  | none => exact Iff.rfl
  | some i =>
    by_cases hk : i.killFails
    · simp [hk]
    · by_cases hw : i.waitFails
      · simp [hk, hw, lookupA_setProc_none_iff]
      · simp [hk, hw, lookupA_setProc_none_iff]

theorem closeProcM_ok_reaped (pid : Nat) (procs : List (Nat × ProcInfo)) (i : ProcInfo)
    (hi : lookupA pid procs = some i) (hok : (closeProcM pid procs).2 = none) :
    lookupA pid (closeProcM pid procs).1 =
      some { status := ProcStatus.reaped, killFails := false, waitFails := false } := by
  unfold closeProcM at hok ⊢
  rw [hi] at hok ⊢
  by_cases hk : i.killFails
  · simp [hk] at hok
  · by_cases hw : i.waitFails
    · simp [hk, hw] at hok
    · have hk0 : i.killFails = false := by simpa using hk
      have hw0 : i.waitFails = false := by simpa using hw
      simp only [hk0, hw0, Bool.false_eq_true, if_false]
      rw [lookupA_setProc_self, lookupA_setProc_self, hi]
      simp [hk0, hw0]

theorem closeTunnelM_tunnels (p : Nat) (w : TunnelWorld) :
    (closeTunnelM p w).1.mgr.tunnels = eraseA p w.mgr.tunnels := by
  unfold closeTunnelM
  cases hl : lookupA p w.mgr.tunnels with
  | none => exact (eraseA_of_lookupA_none hl).symm
  | some t => rfl

theorem closeTunnelM_procs_none_iff (p q : Nat) (w : TunnelWorld) :
    lookupA q (closeTunnelM p w).1.procs = none ↔ lookupA q w.procs = none := by
  unfold closeTunnelM
  cases hl : lookupA p w.mgr.tunnels with
  | none => exact Iff.rfl
  | some t => exact closeProcM_none_iff t.pid q w.procs

theorem closeTunnelM_ok_reaped (p : Nat) (w : TunnelWorld) (t : Tunnel)
    (ht : lookupA p w.mgr.tunnels = some t) (hi : lookupA t.pid w.procs ≠ none)
    (hok : (closeTunnelM p w).2 = none) :
    lookupA t.pid (closeTunnelM p w).1.procs =
      some { status := ProcStatus.reaped, killFails := false, waitFails := false } := by
  unfold closeTunnelM at hok ⊢
  rw [ht] at hok ⊢
  cases hl : lookupA t.pid w.procs with
  | none => exact absurd hl hi
  | some i => exact closeProcM_ok_reaped t.pid w.procs i hl hok

theorem closeTunnelM_reaped_mono (p q : Nat) (w : TunnelWorld)
    (h : lookupA q w.procs =
      some { status := ProcStatus.reaped, killFails := false, waitFails := false }) :
    lookupA q (closeTunnelM p w).1.procs =
      some { status := ProcStatus.reaped, killFails := false, waitFails := false } := by
  unfold closeTunnelM
  cases hl : lookupA p w.mgr.tunnels with
  | none => exact h
  | some t =>
    by_cases hq : q = t.pid
    · subst hq
      show lookupA t.pid (closeProcM t.pid w.procs).1 = _
      unfold closeProcM
      rw [h]
      simp only [Bool.false_eq_true, if_false]
      rw [lookupA_setProc_self, lookupA_setProc_self, h]
      rfl
    · show lookupA q (closeProcM t.pid w.procs).1 = _
      rw [closeProcM_procs_ne t.pid q w.procs hq]
      exact h

end Ggoto

namespace Ggoto

theorem closeListM_reaped_mono (ports : List Nat) :
    ∀ (w : TunnelWorld) (q : Nat),
      lookupA q w.procs =
        some { status := ProcStatus.reaped, killFails := false, waitFails := false } →
      lookupA q (closeListM ports w).1.procs =
        some { status := ProcStatus.reaped, killFails := false, waitFails := false } := by
  induction ports with
  | nil => intro w q h; exact h
  | cons p rest ih =>
    intro w q h
    have hmono := closeTunnelM_reaped_mono p q w h
    unfold closeListM
    cases hr : closeTunnelM p w with
    | mk w1 err =>
      rw [hr] at hmono
      cases err with
      | some e => exact hmono
      | none => exact ih w1 q hmono

theorem closeListM_procs_none_iff (ports : List Nat) :
    ∀ (w : TunnelWorld) (q : Nat),
      lookupA q (closeListM ports w).1.procs = none ↔ lookupA q w.procs = none := by
  induction ports with
  | nil => intro w q; exact Iff.rfl
  | cons p rest ih =>
    intro w q
    have hbase := closeTunnelM_procs_none_iff p q w
    unfold closeListM
    cases hr : closeTunnelM p w with
    | mk w1 err =>
      rw [hr] at hbase
      cases err with
      | some e => exact hbase
      | none => exact (ih w1 q).trans hbase

theorem closeListM_tunnels_ok (ports : List Nat) :
    ∀ (w : TunnelWorld), (closeListM ports w).2 = none →
      (closeListM ports w).1.mgr.tunnels =
        w.mgr.tunnels.filter (fun e => !(ports.contains e.1)) := by
  induction ports with
  | nil =>
    intro w _
    simp [closeListM]
  | cons p rest ih =>
    intro w hok
    have htun := closeTunnelM_tunnels p w
    unfold closeListM at hok ⊢
    cases hr : closeTunnelM p w with
    | mk w1 err =>
      rw [hr] at hok htun
      cases err with
      | some e => simp at hok
      | none =>
        have hok1 : (closeListM rest w1).2 = none := hok
        have hrec := ih w1 hok1
        show (closeListM rest w1).1.mgr.tunnels = _
        rw [hrec, htun, eraseA, List.filter_filter]
        apply List.filter_congr
        intro e _
        show (!(rest.contains e.1) && (e.1 != p)) = !((p :: rest).contains e.1)
        rw [List.contains_cons]
        cases hep : (e.1 == p) <;> cases hrc : rest.contains e.1 <;> simp [hep, hrc, bne]

theorem closeListM_reaped (ports : List Nat) :
    ∀ (w : TunnelWorld),
      (w.mgr.tunnels.map Prod.fst).Nodup →
      (∀ e ∈ w.mgr.tunnels, lookupA e.2.pid w.procs ≠ none) →
      (closeListM ports w).2 = none →
      ∀ e ∈ w.mgr.tunnels, e.1 ∈ ports →
        lookupA e.2.pid (closeListM ports w).1.procs =
          some { status := ProcStatus.reaped, killFails := false, waitFails := false } := by
  induction ports with
  | nil =>
    intro w _ _ _ e _ hmem
    exact absurd hmem (List.not_mem_nil e.1)
  | cons p rest ih =>
    intro w hnd hpres hok e he hmem
    have htun := closeTunnelM_tunnels p w
    unfold closeListM at hok ⊢
    cases hr : closeTunnelM p w with
    | mk w1 err =>
      rw [hr] at hok htun
      cases err with
      | some err0 => simp at hok
      | none =>
        show lookupA e.2.pid (closeListM rest w1).1.procs = _
        have hok1 : (closeListM rest w1).2 = none := hok
        by_cases hep : e.1 = p
        · have hl : lookupA p w.mgr.tunnels = some e.2 :=
            hep ▸ lookupA_of_mem_of_nodup hnd he
          have h1 := closeTunnelM_ok_reaped p w e.2 hl (hpres e he)
            (by rw [hr])
          rw [hr] at h1
          exact closeListM_reaped_mono rest w1 e.2.pid h1
        · have hrest : e.1 ∈ rest := by
            rcases List.mem_cons.mp hmem with hcp | hrr
            · exact absurd hcp hep
            · exact hrr
          have he1 : e ∈ w1.mgr.tunnels := by
            rw [htun]
            exact mem_eraseA_of_ne he hep
          refine ih w1 ?_ ?_ hok1 e he1 hrest
          · rw [htun]
            exact hnd.sublist ((List.filter_sublist _).map _)
          · intro e2 he2mem hnone
            have he2w : e2 ∈ w.mgr.tunnels := by
              rw [htun] at he2mem
              exact mem_of_mem_eraseA he2mem
            have hnone2 : lookupA e2.2.pid (closeTunnelM p w).1.procs = none := by
              rw [hr]; exact hnone
            exact hpres e2 he2w
              ((closeTunnelM_procs_none_iff p e2.2.pid w).mp hnone2)

/-- C5 (amended): `close_tunnel` on an untracked port is a success with no
state change; and whenever `close_all` returns without error, the tracked
tunnel count is 0 and every previously tracked child process has been
killed and its exit observed (its table entry is reaped).  When a kill or
wait step fails, `close_all` aborts there with the error, so the
"regardless of errors" reading of the claim does not hold (see the
counterexample). -/
theorem close_all_ok_closes_everything :
    (∀ (w : TunnelWorld) (p : Nat), lookupA p w.mgr.tunnels = none →
      closeTunnelM p w = (w, none))
    ∧ (∀ w : TunnelWorld, (w.mgr.tunnels.map Prod.fst).Nodup →
        (∀ e ∈ w.mgr.tunnels, lookupA e.2.pid w.procs ≠ none) →
        (closeAllM w).2 = none →
        (closeAllM w).1.mgr.count = 0 ∧
        ∀ e ∈ w.mgr.tunnels,
          lookupA e.2.pid (closeAllM w).1.procs =
            some { status := ProcStatus.reaped, killFails := false,
                   waitFails := false }) := by
  constructor
  · intro w p h
    unfold closeTunnelM
    rw [h]
  · intro w hnd hpres hok
    have hok2 : (closeListM (w.mgr.tunnels.map (fun e => e.1)) w).2 = none := hok
    constructor
    · have ht := closeListM_tunnels_ok (w.mgr.tunnels.map (fun e => e.1)) w hok2
      show ((closeListM (w.mgr.tunnels.map (fun e => e.1)) w).1.mgr.tunnels).length = 0
      rw [ht, List.length_eq_zero, List.filter_eq_nil_iff]
      intro e he
      have hm : e.1 ∈ w.mgr.tunnels.map (fun x => x.1) := List.mem_map_of_mem _ he
      simp [hm]
    · intro e he
      exact closeListM_reaped _ w hnd hpres hok2 e he (List.mem_map_of_mem _ he)

/-- Witness for C5: closing an untracked port (9999) on the stuck world is
a success with no state change, and on a healthy two-tunnel world
`close_all` succeeds, leaves zero tracked tunnels, and reaps both
children. -/
theorem close_all_ok_closes_everything_witness :
    (lookupA 9999 stuckWorld.mgr.tunnels = none ∧
      closeTunnelM 9999 stuckWorld = (stuckWorld, none)) ∧
    ((closeAllM healthyPairWorld).2 = none ∧
      (closeAllM healthyPairWorld).1.mgr.count = 0 ∧
      lookupA 1 (closeAllM healthyPairWorld).1.procs =
        some { status := ProcStatus.reaped, killFails := false, waitFails := false }) :=
  ⟨⟨rfl, close_all_ok_closes_everything.1 stuckWorld 9999 rfl⟩,
    ⟨rfl, (close_all_ok_closes_everything.2 healthyPairWorld (by decide) (by decide)
        rfl).1,
      (close_all_ok_closes_everything.2 healthyPairWorld (by decide) (by decide) rfl).2
        (8000, sampleTunnel 8000 5432 1 none) (by decide)⟩⟩

end Ggoto

namespace Ggoto

theorem insertByKey_perm {α : Type _} (key : α → Nat) (a : α) (l : List α) :
    List.Perm (insertByKey key a l) (a :: l) := by
  induction l with
  | nil => exact List.Perm.refl _
  | cons b bs ih =>
    unfold insertByKey
    by_cases h : key a ≤ key b
    · rw [if_pos h]
    · rw [if_neg h]
      exact (ih.cons b).trans (List.Perm.swap a b bs)

theorem sortByKey_perm {α : Type _} (key : α → Nat) (l : List α) :
    List.Perm (sortByKey key l) l := by
  induction l with
  | nil => exact List.Perm.refl _
  | cons a as ih =>
    unfold sortByKey
    exact (insertByKey_perm key a (sortByKey key as)).trans (ih.cons a)

theorem insertByKey_sorted {α : Type _} (key : α → Nat) (a : α) (l : List α)
    (h : l.Pairwise (fun x y => key x ≤ key y)) :
    (insertByKey key a l).Pairwise (fun x y => key x ≤ key y) := by
  induction l with
  | nil => simp [insertByKey]
  | cons b bs ih =>
    obtain ⟨hb, hbs⟩ := List.pairwise_cons.mp h
    unfold insertByKey
    by_cases hab : key a ≤ key b
    · rw [if_pos hab]
      refine List.pairwise_cons.mpr ⟨?_, h⟩
      intro y hy
      rcases List.mem_cons.mp hy with rfl | hmem
      · exact hab
      · exact le_trans hab (hb y hmem)
    · rw [if_neg hab]
      refine List.pairwise_cons.mpr ⟨?_, ih hbs⟩
      intro y hy
      rcases List.mem_cons.mp ((insertByKey_perm key a bs).mem_iff.mp hy) with rfl | hmem
      · exact Nat.le_of_not_le hab
      · exact hb y hmem

theorem sortByKey_sorted {α : Type _} (key : α → Nat) (l : List α) :
    (sortByKey key l).Pairwise (fun x y => key x ≤ key y) := by
  induction l with
  | nil => simp [sortByKey]
  | cons a as ih => exact insertByKey_sorted key a _ ih

theorem eq_of_perm_of_sorted_keys {α : Type _} (key : α → Nat) {l₁ l₂ : List α}
    (hp : List.Perm l₁ l₂)
    (hs₁ : l₁.Pairwise (fun x y => key x ≤ key y))
    (hs₂ : l₂.Pairwise (fun x y => key x ≤ key y))
    (hnd : (l₁.map key).Nodup) : l₁ = l₂ := by
  have hnd₂ : (l₂.map key).Nodup := ((hp.map key).nodup_iff).mp hnd
  have hne₁ : l₁.Pairwise (fun x y => key x ≠ key y) := List.pairwise_map.mp hnd
  have hne₂ : l₂.Pairwise (fun x y => key x ≠ key y) := List.pairwise_map.mp hnd₂
  have hlt₁ : l₁.Pairwise (fun x y => key x < key y) := by
    have := hs₁.and hne₁
    exact this.imp (fun h => lt_of_le_of_ne h.1 h.2)
  have hlt₂ : l₂.Pairwise (fun x y => key x < key y) := by
    have := hs₂.and hne₂
    exact this.imp (fun h => lt_of_le_of_ne h.1 h.2)
  haveI : IsAntisymm α (fun x y => key x < key y) :=
    ⟨fun a b h1 h2 => absurd (lt_trans h1 h2) (lt_irrefl _)⟩
  exact List.eq_of_perm_of_sorted hp hlt₁ hlt₂

end Ggoto

namespace Ggoto

theorem splitTunnels_singles (l : List Tunnel) :
    (splitTunnels l).1 = (l.filter (fun t => t.group_id == none)).map specSingleItem := by
  induction l with
  | nil => rfl
  | cons t rest ih =>
    unfold splitTunnels
    cases hg : t.group_id with
    | none => simp [hg, List.filter_cons, specSingleItem, ih]
    | some g => simp [hg, List.filter_cons, ih]

theorem addToGroup_keys_mem (g g2 : Nat) (t : Tunnel) (gs : List (Nat × List Tunnel)) :
    g2 ∈ (addToGroup g t gs).map Prod.fst ↔ g2 = g ∨ g2 ∈ gs.map Prod.fst := by
  induction gs with
  | nil => simp [addToGroup]
  | cons e es ih =>
    unfold addToGroup
    by_cases heq : g = e.1
    · rw [if_pos heq]
      subst heq
      simp only [List.map_cons, List.mem_cons]
      tauto
    · rw [if_neg heq]
      by_cases hlt : g < e.1
      · rw [if_pos hlt]
        simp only [List.map_cons, List.mem_cons]
      · rw [if_neg hlt]
        simp only [List.map_cons, List.mem_cons, ih]
        tauto

theorem addToGroup_keys_sorted (g : Nat) (t : Tunnel) (gs : List (Nat × List Tunnel))
    (h : (gs.map Prod.fst).Pairwise (fun x y => x < y)) :
    ((addToGroup g t gs).map Prod.fst).Pairwise (fun x y => x < y) := by
  induction gs with
  | nil => simp [addToGroup]
  | cons e es ih =>
    have h2 : (e.1 :: es.map Prod.fst).Pairwise (fun x y => x < y) := by simpa using h
    obtain ⟨he, hes⟩ := List.pairwise_cons.mp h2
    unfold addToGroup
    by_cases heq : g = e.1
    · rw [if_pos heq]
      simpa using h
    · rw [if_neg heq]
      by_cases hlt : g < e.1
      · rw [if_pos hlt]
        simp only [List.map_cons]
        refine List.pairwise_cons.mpr ⟨?_, h2⟩
        intro y hy
        rcases List.mem_cons.mp hy with rfl | hmem
        · exact hlt
        · exact lt_trans hlt (he y hmem)
      · rw [if_neg hlt]
        have hgt : e.1 < g := lt_of_le_of_ne (Nat.le_of_not_lt hlt) (fun hc => heq hc.symm)
        simp only [List.map_cons]
        refine List.pairwise_cons.mpr ⟨?_, ih hes⟩
        intro y hy
        rcases (addToGroup_keys_mem g y t es).mp hy with rfl | hmem
        · exact hgt
        · exact he y hmem

theorem splitTunnels_keys_sorted (l : List Tunnel) :
    ((splitTunnels l).2.map Prod.fst).Pairwise (fun x y => x < y) := by
  induction l with
  | nil => simp [splitTunnels]
  | cons t rest ih =>
    unfold splitTunnels
    cases hg : t.group_id with
    | none => exact ih
    | some g => exact addToGroup_keys_sorted g t _ ih

theorem splitTunnels_keys_mem (l : List Tunnel) (g : Nat) :
    g ∈ (splitTunnels l).2.map Prod.fst ↔ g ∈ l.filterMap (fun t => t.group_id) := by
  induction l with
  | nil => simp [splitTunnels]
  | cons t rest ih =>
    unfold splitTunnels
    cases hg : t.group_id with
    | none => simp [List.filterMap_cons, hg, ih]
    | some g0 =>
      simp only [List.filterMap_cons, hg, List.mem_cons, addToGroup_keys_mem, ih]

theorem lookupA_addToGroup_self (g : Nat) (t : Tunnel) (gs : List (Nat × List Tunnel))
    (hs : (gs.map Prod.fst).Pairwise (fun x y => x < y)) :
    lookupA g (addToGroup g t gs) = some (t :: (lookupA g gs).getD []) := by
  induction gs with
  | nil => simp [addToGroup, lookupA_cons, lookupA]
  | cons e es ih =>
    have h2 : (e.1 :: es.map Prod.fst).Pairwise (fun x y => x < y) := by simpa using hs
    obtain ⟨he, hes⟩ := List.pairwise_cons.mp h2
    unfold addToGroup
    by_cases heq : g = e.1
    · rw [if_pos heq]
      rw [lookupA_cons, lookupA_cons, if_pos heq.symm, if_pos heq.symm]
      rfl
    · rw [if_neg heq]
      by_cases hlt : g < e.1
      · rw [if_pos hlt]
        have hnone : lookupA g (e :: es) = none := by
          rw [lookupA_eq_none_iff]
          intro e2 he2
          rcases List.mem_cons.mp he2 with rfl | hmem
          · exact fun hc => heq hc.symm
          · intro hc
            have : e.1 < e2.1 := he e2.1 (List.mem_map_of_mem Prod.fst hmem)
            exact absurd (hc ▸ this : e.1 < g) (Nat.lt_asymm hlt)
        rw [lookupA_cons, if_pos rfl, hnone]
        rfl
      · rw [if_neg hlt]
        have hne : ¬ e.1 = g := fun hc => heq hc.symm
        rw [lookupA_cons, lookupA_cons, if_neg hne, if_neg hne]
        exact ih hes

theorem lookupA_addToGroup_ne (g g2 : Nat) (t : Tunnel) (gs : List (Nat × List Tunnel))
    (h : g2 ≠ g) : lookupA g2 (addToGroup g t gs) = lookupA g2 gs := by
  induction gs with
  | nil =>
    unfold addToGroup
    rw [lookupA_cons, if_neg (fun hc => h hc.symm)]
  | cons e es ih =>
    unfold addToGroup
    by_cases heq : g = e.1
    · rw [if_pos heq]
      rw [lookupA_cons, lookupA_cons]
      rcases Decidable.em (e.1 = g2) with he2 | he2
      · exact absurd (heq.trans he2) (fun hc => h hc.symm)
      · rw [if_neg he2, if_neg he2]
    · rw [if_neg heq]
      by_cases hlt : g < e.1
      · rw [if_pos hlt]
        rw [lookupA_cons, if_neg (fun hc => h hc.symm)]
      · rw [if_neg hlt]
        rw [lookupA_cons, lookupA_cons]
        rcases Decidable.em (e.1 = g2) with he2 | he2
        · rw [if_pos he2, if_pos he2]
        · rw [if_neg he2, if_neg he2]
          exact ih

theorem splitTunnels_groups (l : List Tunnel) (g : Nat) :
    ((lookupA g (splitTunnels l).2).getD []) = l.filter (fun t => t.group_id == some g) := by
  induction l with
  | nil => rfl
  | cons t rest ih =>
    unfold splitTunnels
    cases hg : t.group_id with
    | none =>
      have hf : (t.group_id == some g) = false := by simp [hg]
      simp only [List.filter_cons, hf, Bool.false_eq_true, if_false]
      exact ih
    | some g0 =>
      by_cases hgg : g0 = g
      · subst hgg
        have hf : (t.group_id == some g0) = true := by simp [hg]
        simp only [List.filter_cons, hf, if_true]
        rw [lookupA_addToGroup_self g0 t _ (splitTunnels_keys_sorted rest),
          Option.getD_some, ih]
      · have hf : (t.group_id == some g) = false := by simp [hg, hgg]
        simp only [List.filter_cons, hf, Bool.false_eq_true, if_false]
        rw [lookupA_addToGroup_ne g0 g t _ (fun hc => hgg hc.symm)]
        exact ih

end Ggoto

namespace Ggoto

theorem filterMap_congr_mem {α β : Type _} {l : List α} {f g : α → Option β}
    (h : ∀ a ∈ l, f a = g a) : l.filterMap f = l.filterMap g := by
  induction l with
  | nil => rfl
  | cons a as ih =>
    rw [List.filterMap_cons, List.filterMap_cons, h a (List.mem_cons_self a as),
      ih (fun x hx => h x (List.mem_cons_of_mem a hx))]

theorem assoc_filterMap_keys {β : Type _} (gs : List (Nat × List Tunnel))
    (hnd : (gs.map Prod.fst).Nodup) (F : Nat → List Tunnel → Option β) :
    gs.filterMap (fun e => F e.1 e.2) =
      (gs.map Prod.fst).filterMap (fun g => F g ((lookupA g gs).getD [])) := by
  induction gs with
  | nil => rfl
  | cons e es ih =>
    have hnd2 : (e.1 :: es.map Prod.fst).Nodup := by simpa using hnd
    obtain ⟨hhead, htail⟩ := List.nodup_cons.mp hnd2
    rw [List.map_cons, List.filterMap_cons, List.filterMap_cons]
    have hself : ((lookupA e.1 (e :: es)).getD []) = e.2 := by
      rw [lookupA_cons, if_pos rfl, Option.getD_some]
    rw [hself, ih htail]
    have hcong :
        (es.map Prod.fst).filterMap (fun g => F g ((lookupA g es).getD [])) =
          (es.map Prod.fst).filterMap (fun g => F g ((lookupA g (e :: es)).getD [])) := by
      apply filterMap_congr_mem
      intro g hg
      have hne : ¬ e.1 = g := fun hc => hhead (hc ▸ hg)
      rw [lookupA_cons, if_neg hne]
    rw [hcong]

theorem pairwise_lt_of_le_nodup {l : List Nat}
    (hle : l.Pairwise (fun x y => x ≤ y)) (hnd : l.Nodup) :
    l.Pairwise (fun x y => x < y) :=
  (hle.and hnd).imp (fun h => lt_of_le_of_ne h.1 h.2)

theorem strict_sorted_keys_eq {l₁ l₂ : List Nat}
    (h₁ : l₁.Pairwise (fun x y => x < y)) (h₂ : l₂.Pairwise (fun x y => x < y))
    (hmem : ∀ a, a ∈ l₁ ↔ a ∈ l₂) : l₁ = l₂ := by
  have hnd₁ : l₁.Nodup := h₁.imp (fun h => Nat.ne_of_lt h)
  have hnd₂ : l₂.Nodup := h₂.imp (fun h => Nat.ne_of_lt h)
  have hp : List.Perm l₁ l₂ := (List.perm_ext_iff_of_nodup hnd₁ hnd₂).mpr hmem
  refine eq_of_perm_of_sorted_keys id hp ?_ ?_ ?_
  · exact h₁.imp le_of_lt
  · exact h₂.imp le_of_lt
  · simpa using hnd₁

theorem splitTunnels_keys_eq (ts : List Tunnel) :
    (splitTunnels (sortByKey (fun t => t.local_port) ts)).2.map Prod.fst =
      (sortByKey id (ts.filterMap (fun t => t.group_id))).dedup := by
  apply strict_sorted_keys_eq (splitTunnels_keys_sorted _)
  · apply pairwise_lt_of_le_nodup
    · exact ((sortByKey_sorted id _).sublist (List.dedup_sublist _))
    · exact List.nodup_dedup _
  · intro g
    rw [splitTunnels_keys_mem, List.mem_dedup,
      (sortByKey_perm id (ts.filterMap (fun t => t.group_id))).mem_iff]
    constructor
    · intro h
      obtain ⟨t, ht, hgt⟩ := List.mem_filterMap.mp h
      exact List.mem_filterMap.mpr
        ⟨t, (sortByKey_perm (fun t => t.local_port) ts).mem_iff.mp ht, hgt⟩
    · intro h
      obtain ⟨t, ht, hgt⟩ := List.mem_filterMap.mp h
      exact List.mem_filterMap.mpr
        ⟨t, (sortByKey_perm (fun t => t.local_port) ts).mem_iff.mpr ht, hgt⟩

theorem filter_sortByKey (ts : List Tunnel) (P : Tunnel → Bool)
    (hports : ((ts.map (fun t => t.local_port)).Nodup)) :
    (sortByKey (fun t => t.local_port) ts).filter P =
      sortByKey (fun t => t.local_port) (ts.filter P) := by
  refine eq_of_perm_of_sorted_keys (fun t => t.local_port) ?_ ?_ ?_ ?_
  · exact ((sortByKey_perm _ ts).filter P).trans (sortByKey_perm _ (ts.filter P)).symm
  · exact (sortByKey_sorted _ ts).filter P
  · exact sortByKey_sorted _ _
  · refine List.Nodup.sublist ((List.filter_sublist _).map _) ?_
    exact (((sortByKey_perm (fun t => t.local_port) ts).map _).nodup_iff).mpr hports

theorem le_getLast_of_sorted {α : Type _} (key : α → Nat) :
    ∀ (l : List α) (hne : l ≠ []), l.Pairwise (fun x y => key x ≤ key y) →
      ∀ t ∈ l, key t ≤ key (l.getLast hne) := by
  intro l
  induction l with
  | nil => intro hne; exact absurd rfl hne
  | cons a as ih =>
    intro hne hs t ht
    obtain ⟨ha, has⟩ := List.pairwise_cons.mp hs
    cases as with
    | nil =>
      rcases List.mem_cons.mp ht with rfl | hmem
      · exact le_refl _
      · cases hmem
    | cons b bs =>
      rw [List.getLast_cons (List.cons_ne_nil b bs)]
      rcases List.mem_cons.mp ht with rfl | hmem
      · exact ha _ (List.getLast_mem (List.cons_ne_nil b bs))
      · exact ih (List.cons_ne_nil b bs) has t hmem

end Ggoto

namespace Ggoto

theorem head_sortByKey_min (ms : List Tunnel) (m0 : Tunnel) (rest : List Tunnel)
    (h : sortByKey (fun t => t.local_port) ms = m0 :: rest) :
    (ms.map (fun t => t.local_port)).min? = some m0.local_port := by
  rw [List.min?_eq_some_iff']
  have hperm := sortByKey_perm (fun t => t.local_port) ms
  constructor
  · exact List.mem_map_of_mem _ (hperm.mem_iff.mp (h ▸ List.mem_cons_self m0 rest))
  · intro b hb
    obtain ⟨t, ht, rfl⟩ := List.mem_map.mp hb
    have ht2 : t ∈ m0 :: rest := h ▸ hperm.mem_iff.mpr ht
    have hs : (m0 :: rest).Pairwise (fun x y => x.local_port ≤ y.local_port) :=
      h ▸ sortByKey_sorted (fun t => t.local_port) ms
    rcases List.mem_cons.mp ht2 with rfl | hmem
    · exact le_refl _
    · exact (List.pairwise_cons.mp hs).1 t hmem

theorem last_sortByKey_max (ms : List Tunnel) (m0 : Tunnel) (rest : List Tunnel)
    (h : sortByKey (fun t => t.local_port) ms = m0 :: rest) :
    (ms.map (fun t => t.local_port)).max? =
      some ((m0 :: rest).getLast (List.cons_ne_nil m0 rest)).local_port := by
  rw [List.max?_eq_some_iff']
  have hperm := sortByKey_perm (fun t => t.local_port) ms
  have hs : (m0 :: rest).Pairwise (fun x y => x.local_port ≤ y.local_port) :=
    h ▸ sortByKey_sorted (fun t => t.local_port) ms
  constructor
  · refine List.mem_map_of_mem _ (hperm.mem_iff.mp ?_)
    rw [h]
    exact List.getLast_mem (List.cons_ne_nil m0 rest)
  · intro b hb
    obtain ⟨t, ht, rfl⟩ := List.mem_map.mp hb
    have ht2 : t ∈ m0 :: rest := h ▸ hperm.mem_iff.mpr ht
    exact le_getLast_of_sorted (fun t => t.local_port) (m0 :: rest)
      (List.cons_ne_nil m0 rest) hs t ht2

theorem groupItem_eq (ts : List Tunnel)
    (hports : ((ts.map (fun t => t.local_port)).Nodup)) (g : Nat) :
    mkGroupItem g ((sortByKey (fun t => t.local_port) ts).filter
        (fun t => t.group_id == some g)) =
      specGroupItem g (ts.filter (fun t => t.group_id == some g)) := by
  rw [filter_sortByKey ts _ hports]
  unfold mkGroupItem specGroupItem
  cases h : sortByKey (fun t => t.local_port) (ts.filter (fun t => t.group_id == some g))
    with
  | nil => rfl
  | cons m0 rest =>
    have hmin := head_sortByKey_min _ m0 rest h
    have hmax := last_sortByKey_max _ m0 rest h
    have hlen : ((ts.filter (fun t => t.group_id == some g)).length) =
        (m0 :: rest).length := by
      rw [← h]
      exact ((sortByKey_perm _ _).length_eq).symm
    rw [hmin, hmax, hlen]
    simp

theorem group_items_eq (ts : List Tunnel)
    (hports : ((ts.map (fun t => t.local_port)).Nodup)) :
    (splitTunnels (sortByKey (fun t => t.local_port) ts)).2.filterMap
        (fun e => mkGroupItem e.1 e.2) =
      ((sortByKey id (ts.filterMap (fun t => t.group_id))).dedup).filterMap
        (fun g => specGroupItem g (ts.filter (fun t => t.group_id == some g))) := by
  have hnd : ((splitTunnels (sortByKey (fun t => t.local_port) ts)).2.map Prod.fst).Nodup :=
    (splitTunnels_keys_sorted _).imp (fun h => Nat.ne_of_lt h)
  rw [assoc_filterMap_keys _ hnd, splitTunnels_keys_eq]
  apply filterMap_congr_mem
  intro g _
  rw [splitTunnels_groups]
  exact groupItem_eq ts hports g

/-- C4 (amended): with pairwise-distinct local ports, `get_display_items`
produces, as a bag, exactly one `Single` item per ungrouped tunnel and one
collapsed `Group` item per group id — the group item spanning
`[min local port, max local port]` of its members, carrying the remote
ports of the minimum- and maximum-local-port members as its remote span,
and the member count — and the resulting list is sorted ascending by each
item's first local port.  (The remote span is not `[min remote port, max
remote port]` in general; see the counterexample.) -/
theorem get_display_items_grouping (tunnels : List (Nat × Tunnel))
    (hports : ((tunnels.map (fun e => e.2.local_port)).Nodup)) :
    List.Perm (getDisplayItems tunnels) (specDisplayBag tunnels) ∧
    (getDisplayItems tunnels).Pairwise (fun a b => firstPort a ≤ firstPort b) := by
  have hports2 : (((tunnels.map (fun e => e.2)).map (fun t => t.local_port)).Nodup) := by
    rw [List.map_map]
    exact hports
  constructor
  · show List.Perm (sortByKey firstPort _) _
    refine (sortByKey_perm firstPort _).trans ?_
    unfold specDisplayBag
    refine List.Perm.append ?_ ?_
    · rw [splitTunnels_singles]
      exact ((sortByKey_perm _ _).filter _).map _
    · rw [group_items_eq _ hports2]
  · exact sortByKey_sorted _ _

/-- Witness for C4: on the two-tunnel group with descending remote ports
the display items are a permutation of the expected bag and sorted by first
local port. -/
theorem get_display_items_grouping_witness :
    ((descendingGroupTunnels.map (fun e => e.2.local_port)).Nodup) ∧
    List.Perm (getDisplayItems descendingGroupTunnels)
      (specDisplayBag descendingGroupTunnels) ∧
    (getDisplayItems descendingGroupTunnels).Pairwise
      (fun a b => firstPort a ≤ firstPort b) :=
  ⟨by decide, (get_display_items_grouping descendingGroupTunnels (by decide)).1,
    (get_display_items_grouping descendingGroupTunnels (by decide)).2⟩

/-- Counterexample to C4 as stated: in a group whose remote ports descend
as local ports ascend, the produced remote span is `(90, 80)` — the remote
ports of the first and last members in local-port order — while the
minimum remote port of the members is 80, so the span is not
`[min remote port, max remote port]`. -/
theorem get_display_items_remote_span_counterexample :
    getDisplayItems descendingGroupTunnels =
      [TunnelDisplayItem.Group 1 8000 8001 "localhost".toList 90 80 "db-host".toList 2] ∧
    (descendingGroupTunnels.map (fun e => e.2.remote_port)).min? = some 80 ∧
    (90 : Nat) ≠ 80 := ⟨rfl, rfl, by decide⟩

end Ggoto

namespace Ggoto

theorem runningCount_set_of_get {s : List ProbePhase} {i : Nat} {a : ProbePhase}
    (ph : ProbePhase) (h : s[i]? = some a) :
    runningCount (s.set i ph) + (if a == ProbePhase.running then 1 else 0) =
      runningCount s + (if ph == ProbePhase.running then 1 else 0) := by
  induction s generalizing i with
  | nil => simp at h
  | cons b t ih =>
    cases i with
    | zero =>
      have hb : b = a := by simpa using h
      subst hb
      simp only [List.set_cons_zero, runningCount, List.filter_cons]
      cases hba : (b == ProbePhase.running) <;> cases hph : (ph == ProbePhase.running) <;>
        simp [hba, hph] <;> omega
    | succ j =>
      have ht : t[j]? = some a := by simpa using h
      have hrec := ih ht
      simp only [runningCount] at hrec
      simp only [List.set_cons_succ, runningCount, List.filter_cons]
      cases hbb : (b == ProbePhase.running) <;>
        simp only [hbb, Bool.false_eq_true, if_false, if_true, List.length_cons] <;>
        omega

/-- C9: during a bulk scan over more than 5 hosts, in every reachable scan
state at most `MAX_CONCURRENT_CHECKS = 5` probe tasks hold a semaphore
permit simultaneously; a task performs its remote commands only in the
permit-holding phase, which it can enter only through an acquire step taken
while a permit was free. -/
theorem bulk_scan_semaphore_bound (n : Nat) (hn : 5 < n) (s : List ProbePhase)
    (h : ScanReachableFrom (initScan n) s) :
    runningCount s ≤ maxConcurrentChecks := by
  induction h with
  | refl =>
    simp [initScan, runningCount, List.filter_replicate]
  | step hr hstep ih =>
    cases hstep with
    | acquire i hget hcap =>
      have := runningCount_set_of_get ProbePhase.running hget
      simp at this
      omega
    | finish i hget =>
      have := runningCount_set_of_get ProbePhase.done hget
      simp at this
      omega

/-- Witness for C9: a scan over 6 hosts with the first task holding a
permit is a reachable state, and its permit count is within the bound. -/
theorem bulk_scan_semaphore_bound_witness :
    5 < 6 ∧ runningCount ((initScan 6).set 0 ProbePhase.running) ≤ maxConcurrentChecks :=
  ⟨by decide,
    bulk_scan_semaphore_bound 6 (by decide) _
      (ScanReachableFrom.step ScanReachableFrom.refl
        (ScanStep.acquire (initScan 6) 0 rfl (by decide)))⟩

end Ggoto

namespace Ggoto

theorem modalCount_handleFilterInput (app : App) (key : KeyEvent) :
    modalCount (handleFilterInput app key).1 ≤ modalCount app := by
  obtain ⟨code, ctrl⟩ := key
  cases code <;>
    simp [handleFilterInput, App.stop_filtering, App.filter_clear, App.filter_pop,
      App.filter_push, modalCount, modalFlags, List.count_cons]

theorem modalCount_handleCommandInput (compile : RegexCompile) (app : App)
    (key : KeyEvent) :
    modalCount (handleCommandInput compile app key).1 ≤ modalCount app := by
  obtain ⟨code, ctrl⟩ := key
  cases code <;>
    simp only [handleCommandInput] <;>
    (repeat' split) <;>
    simp [App.stop_command_input, App.command_pop, App.command_push,
      modalCount, modalFlags, List.count_cons]

theorem modalCount_handlePipeInput (app : App) (key : KeyEvent) :
    modalCount (handlePipeInput app key).1 ≤ modalCount app := by
  obtain ⟨code, ctrl⟩ := key
  cases code <;>
    simp only [handlePipeInput] <;>
    (repeat' split) <;>
    simp [App.stop_pipe_input, App.pipe_pop, App.pipe_push,
      modalCount, modalFlags, List.count_cons]

theorem modalCount_handleSaveInput (app : App) (key : KeyEvent) :
    modalCount (handleSaveInput app key).1 ≤ modalCount app := by
  obtain ⟨code, ctrl⟩ := key
  cases code <;>
    simp only [handleSaveInput] <;>
    (repeat' split) <;>
    simp [App.stop_save_input, App.save_path_pop, App.save_path_push,
      modalCount, modalFlags, List.count_cons]

theorem modalCount_handleTunnelInput (compile : RegexCompile) (app : App)
    (key : KeyEvent) :
    modalCount (handleTunnelInput compile app key).1 ≤ modalCount app := by
  obtain ⟨code, ctrl⟩ := key
  cases code <;>
    simp only [handleTunnelInput] <;>
    (repeat' split) <;>
    simp [App.stop_tunnel_input, App.tunnel_input_pop, App.tunnel_input_push,
      modalCount, modalFlags, List.count_cons]

theorem modalCount_handleInstallMenuInput (compile : RegexCompile) (app : App)
    (key : KeyEvent) :
    modalCount (handleInstallMenuInput compile app key).1 ≤ modalCount app := by
  obtain ⟨code, ctrl⟩ := key
  cases code <;>
    simp only [handleInstallMenuInput] <;>
    (repeat' split) <;>
    simp [modalCount, modalFlags, List.count_cons]

end Ggoto

namespace Ggoto

set_option maxHeartbeats 3200000 in
theorem modalCount_handleServerListInput (compile : RegexCompile) (app : App)
    (key : KeyEvent) (h1 : app.is_filtering = false)
    (h2 : app.is_entering_command = false) (h3 : app.is_entering_pipe = false)
    (h4 : app.is_saving_output = false) (h5 : app.is_entering_tunnel = false)
    (h6 : app.is_showing_install_menu = false) :
    modalCount (handleServerListInput compile app key).1 ≤ 1 := by
  obtain ⟨code, ctrl⟩ := key
  cases code
  case CharKey c =>
    simp only [handleServerListInput]
    by_cases hc01 : c = 'k'
    · rw [if_pos hc01]
      (try
      simp only [App.select_previous, App.select_next, App.start_filtering,
        App.cycle_sort_order, App.sort_servers, App.start_command_input,
        App.start_tunnel_input, App.toggle_mosh, App.set_status]) <;>
      (repeat' split) <;>
      simp only [modalCount, modalFlags, List.count_cons, List.count_nil,
        h1, h2, h3, h4, h5, h6] <;>
      decide
    rw [if_neg hc01]
    by_cases hc02 : c = 'j'
    · rw [if_pos hc02]
      (try
      simp only [App.select_previous, App.select_next, App.start_filtering,
        App.cycle_sort_order, App.sort_servers, App.start_command_input,
        App.start_tunnel_input, App.toggle_mosh, App.set_status]) <;>
      (repeat' split) <;>
      simp only [modalCount, modalFlags, List.count_cons, List.count_nil,
        h1, h2, h3, h4, h5, h6] <;>
      decide
    rw [if_neg hc02]
    by_cases hc03 : c = '/'
    · rw [if_pos hc03]
      (try
      simp only [App.select_previous, App.select_next, App.start_filtering,
        App.cycle_sort_order, App.sort_servers, App.start_command_input,
        App.start_tunnel_input, App.toggle_mosh, App.set_status]) <;>
      (repeat' split) <;>
      simp only [modalCount, modalFlags, List.count_cons, List.count_nil,
        h1, h2, h3, h4, h5, h6] <;>
      decide
    rw [if_neg hc03]
    by_cases hc04 : c = 'n'
    · rw [if_pos hc04]
      (try
      simp only [App.select_previous, App.select_next, App.start_filtering,
        App.cycle_sort_order, App.sort_servers, App.start_command_input,
        App.start_tunnel_input, App.toggle_mosh, App.set_status]) <;>
      (repeat' split) <;>
      simp only [modalCount, modalFlags, List.count_cons, List.count_nil,
        h1, h2, h3, h4, h5, h6] <;>
      decide
    rw [if_neg hc04]
    by_cases hc05 : c = 'N'
    · rw [if_pos hc05]
      (try
      simp only [App.select_previous, App.select_next, App.start_filtering,
        App.cycle_sort_order, App.sort_servers, App.start_command_input,
        App.start_tunnel_input, App.toggle_mosh, App.set_status]) <;>
      (repeat' split) <;>
      simp only [modalCount, modalFlags, List.count_cons, List.count_nil,
        h1, h2, h3, h4, h5, h6] <;>
      decide
    rw [if_neg hc05]
    by_cases hc06 : c = 'G'
    · rw [if_pos hc06]
      (try
      simp only [App.select_previous, App.select_next, App.start_filtering,
        App.cycle_sort_order, App.sort_servers, App.start_command_input,
        App.start_tunnel_input, App.toggle_mosh, App.set_status]) <;>
      (repeat' split) <;>
      simp only [modalCount, modalFlags, List.count_cons, List.count_nil,
        h1, h2, h3, h4, h5, h6] <;>
      decide
    rw [if_neg hc06]
    by_cases hc07 : c = 's'
    · rw [if_pos hc07]
      (try
      simp only [App.select_previous, App.select_next, App.start_filtering,
        App.cycle_sort_order, App.sort_servers, App.start_command_input,
        App.start_tunnel_input, App.toggle_mosh, App.set_status]) <;>
      (repeat' split) <;>
      simp only [modalCount, modalFlags, List.count_cons, List.count_nil,
        h1, h2, h3, h4, h5, h6] <;>
      decide
    rw [if_neg hc07]
    by_cases hc08 : c = 'f'
    · rw [if_pos hc08]
      (try
      simp only [App.select_previous, App.select_next, App.start_filtering,
        App.cycle_sort_order, App.sort_servers, App.start_command_input,
        App.start_tunnel_input, App.toggle_mosh, App.set_status]) <;>
      (repeat' split) <;>
      simp only [modalCount, modalFlags, List.count_cons, List.count_nil,
        h1, h2, h3, h4, h5, h6] <;>
      decide
    rw [if_neg hc08]
    by_cases hc09 : c = 'c'
    · rw [if_pos hc09]
      (try
      simp only [App.select_previous, App.select_next, App.start_filtering,
        App.cycle_sort_order, App.sort_servers, App.start_command_input,
        App.start_tunnel_input, App.toggle_mosh, App.set_status]) <;>
      (repeat' split) <;>
      simp only [modalCount, modalFlags, List.count_cons, List.count_nil,
        h1, h2, h3, h4, h5, h6] <;>
      decide
    rw [if_neg hc09]
    by_cases hc10 : c = 't'
    · rw [if_pos hc10]
      (try
      simp only [App.select_previous, App.select_next, App.start_filtering,
        App.cycle_sort_order, App.sort_servers, App.start_command_input,
        App.start_tunnel_input, App.toggle_mosh, App.set_status]) <;>
      (repeat' split) <;>
      simp only [modalCount, modalFlags, List.count_cons, List.count_nil,
        h1, h2, h3, h4, h5, h6] <;>
      decide
    rw [if_neg hc10]
    by_cases hc11 : c = 'T'
    · rw [if_pos hc11]
      (try
      simp only [App.select_previous, App.select_next, App.start_filtering,
        App.cycle_sort_order, App.sort_servers, App.start_command_input,
        App.start_tunnel_input, App.toggle_mosh, App.set_status]) <;>
      (repeat' split) <;>
      simp only [modalCount, modalFlags, List.count_cons, List.count_nil,
        h1, h2, h3, h4, h5, h6] <;>
      decide
    rw [if_neg hc11]
    by_cases hc12 : c = 'm'
    · rw [if_pos hc12]
      (try
      simp only [App.select_previous, App.select_next, App.start_filtering,
        App.cycle_sort_order, App.sort_servers, App.start_command_input,
        App.start_tunnel_input, App.toggle_mosh, App.set_status]) <;>
      (repeat' split) <;>
      simp only [modalCount, modalFlags, List.count_cons, List.count_nil,
        h1, h2, h3, h4, h5, h6] <;>
      decide
    rw [if_neg hc12]
    by_cases hc13 : c = 'M'
    · rw [if_pos hc13]
      (try
      simp only [App.select_previous, App.select_next, App.start_filtering,
        App.cycle_sort_order, App.sort_servers, App.start_command_input,
        App.start_tunnel_input, App.toggle_mosh, App.set_status]) <;>
      (repeat' split) <;>
      simp only [modalCount, modalFlags, List.count_cons, List.count_nil,
        h1, h2, h3, h4, h5, h6] <;>
      decide
    rw [if_neg hc13]
    (try
      simp only [App.select_previous, App.select_next, App.start_filtering,
        App.cycle_sort_order, App.sort_servers, App.start_command_input,
        App.start_tunnel_input, App.toggle_mosh, App.set_status]) <;>
      (repeat' split) <;>
      simp only [modalCount, modalFlags, List.count_cons, List.count_nil,
        h1, h2, h3, h4, h5, h6] <;>
      decide
  all_goals
    simp only [handleServerListInput, App.select_previous, App.select_next,
      App.start_filtering, App.cycle_sort_order, App.sort_servers,
      App.start_command_input, App.start_tunnel_input, App.toggle_mosh,
      App.set_status] <;>
    (repeat' split) <;>
    simp only [modalCount, modalFlags, List.count_cons, List.count_nil,
      h1, h2, h3, h4, h5, h6] <;>
    decide

set_option maxHeartbeats 3200000 in
theorem modalCount_handleGroupListInput (compile : RegexCompile) (app : App)
    (key : KeyEvent) (h1 : app.is_filtering = false)
    (h2 : app.is_entering_command = false) (h3 : app.is_entering_pipe = false)
    (h4 : app.is_saving_output = false) (h5 : app.is_entering_tunnel = false)
    (h6 : app.is_showing_install_menu = false) :
    modalCount (handleGroupListInput compile app key).1 ≤ 1 := by
  obtain ⟨sv, gr, si, sg, vm, so, ft, fFil, sq, sm, smt, isf, hist, fCmd, ct, co, cs,
    irc, fPipe, pt, fSave, spth, tm, fTun, ti, stn, fMenu, ims, um⟩ := app
  dsimp only at h1 h2 h3 h4 h5 h6
  subst h1
  subst h2
  subst h3
  subst h4
  subst h5
  subst h6
  obtain ⟨code, ctrl⟩ := key
  cases vm <;> cases code <;>
    simp only [handleGroupListInput, App.select_previous, App.select_next] <;>
    (repeat' split) <;>
    simp only [modalCount, modalFlags, List.count_cons, List.count_nil] <;>
    decide

set_option maxHeartbeats 3200000 in
theorem modalCount_handleDetailsInput (compile : RegexCompile) (app : App)
    (key : KeyEvent) (h1 : app.is_filtering = false)
    (h2 : app.is_entering_command = false) (h3 : app.is_entering_pipe = false)
    (h4 : app.is_saving_output = false) (h5 : app.is_entering_tunnel = false)
    (h6 : app.is_showing_install_menu = false) :
    modalCount (handleDetailsInput compile app key).1 ≤ 1 := by
  obtain ⟨sv, gr, si, sg, vm, so, ft, fFil, sq, sm, smt, isf, hist, fCmd, ct, co, cs,
    irc, fPipe, pt, fSave, spth, tm, fTun, ti, stn, fMenu, ims, um⟩ := app
  dsimp only at h1 h2 h3 h4 h5 h6
  subst h1
  subst h2
  subst h3
  subst h4
  subst h5
  subst h6
  obtain ⟨code, ctrl⟩ := key
  cases vm <;> cases code <;>
    simp only [handleDetailsInput, App.select_previous, App.select_next] <;>
    (repeat' split) <;>
    simp only [modalCount, modalFlags, List.count_cons, List.count_nil] <;>
    decide

set_option maxHeartbeats 3200000 in
theorem modalCount_handleHelpInput (app : App) (key : KeyEvent) (h1 : app.is_filtering = false)
    (h2 : app.is_entering_command = false) (h3 : app.is_entering_pipe = false)
    (h4 : app.is_saving_output = false) (h5 : app.is_entering_tunnel = false)
    (h6 : app.is_showing_install_menu = false) :
    modalCount (handleHelpInput app key).1 ≤ 1 := by
  obtain ⟨sv, gr, si, sg, vm, so, ft, fFil, sq, sm, smt, isf, hist, fCmd, ct, co, cs,
    irc, fPipe, pt, fSave, spth, tm, fTun, ti, stn, fMenu, ims, um⟩ := app
  dsimp only at h1 h2 h3 h4 h5 h6
  subst h1
  subst h2
  subst h3
  subst h4
  subst h5
  subst h6
  obtain ⟨code, ctrl⟩ := key
  cases vm <;> cases code <;>
    simp only [handleHelpInput] <;>
    (repeat' split) <;>
    simp only [modalCount, modalFlags, List.count_cons, List.count_nil] <;>
    decide

set_option maxHeartbeats 3200000 in
theorem modalCount_handleCommandOutputInput (app : App) (key : KeyEvent) (h1 : app.is_filtering = false)
    (h2 : app.is_entering_command = false) (h3 : app.is_entering_pipe = false)
    (h4 : app.is_saving_output = false) (h5 : app.is_entering_tunnel = false)
    (h6 : app.is_showing_install_menu = false) :
    modalCount (handleCommandOutputInput app key).1 ≤ 1 := by
  obtain ⟨sv, gr, si, sg, vm, so, ft, fFil, sq, sm, smt, isf, hist, fCmd, ct, co, cs,
    irc, fPipe, pt, fSave, spth, tm, fTun, ti, stn, fMenu, ims, um⟩ := app
  dsimp only at h1 h2 h3 h4 h5 h6
  subst h1
  subst h2
  subst h3
  subst h4
  subst h5
  subst h6
  obtain ⟨code, ctrl⟩ := key
  cases vm <;> cases code <;>
    simp only [handleCommandOutputInput, App.start_command_input,
      App.start_save_input, App.start_pipe_input] <;>
    (repeat' split) <;>
    simp only [modalCount, modalFlags, List.count_cons, List.count_nil] <;>
    decide

set_option maxHeartbeats 3200000 in
theorem modalCount_handleTunnelsInput (app : App) (key : KeyEvent) (h1 : app.is_filtering = false)
    (h2 : app.is_entering_command = false) (h3 : app.is_entering_pipe = false)
    (h4 : app.is_saving_output = false) (h5 : app.is_entering_tunnel = false)
    (h6 : app.is_showing_install_menu = false) :
    modalCount (handleTunnelsInput app key).1 ≤ 1 := by
  obtain ⟨sv, gr, si, sg, vm, so, ft, fFil, sq, sm, smt, isf, hist, fCmd, ct, co, cs,
    irc, fPipe, pt, fSave, spth, tm, fTun, ti, stn, fMenu, ims, um⟩ := app
  dsimp only at h1 h2 h3 h4 h5 h6
  subst h1
  subst h2
  subst h3
  subst h4
  subst h5
  subst h6
  obtain ⟨code, ctrl⟩ := key
  cases vm <;> cases code <;>
    simp only [handleTunnelsInput, App.start_tunnel_input] <;>
    (repeat' split) <;>
    simp only [modalCount, modalFlags, List.count_cons, List.count_nil] <;>
    decide

end Ggoto

namespace Ggoto

/-- Counterexample to C6 as stated: the raw `App` operations do not
preserve mutual exclusion — `start_command_input` invoked while filter mode
is active leaves both `is_filtering` and `is_entering_command` set, so the
state reached through the two public operations has two modal modes active
at once (the source clears only its own buffer, never the other flags). -/
theorem modal_modes_counterexample :
    AtMostOneModal (App.start_filtering App.new) ∧
    ¬ AtMostOneModal (App.start_command_input (App.start_filtering App.new)) :=
  ⟨by decide, by decide⟩

/-- C6 (amended): mutual exclusion of the modal input modes holds for every
state reachable through the key-event dispatcher: the initial state has no
modal mode active, and `handle_key_event` preserves "at most one modal mode
active" — it checks the modal flags in priority order, each modal handler
only ever clears its own flag, and the handlers that activate a mode run
only when no modal flag is set.  (The raw `App` entry methods alone do not
enforce this; see the counterexample.) -/
theorem handle_key_event_modal_exclusion :
    AtMostOneModal App.new ∧
    ∀ (compile : RegexCompile) (app : App) (key : KeyEvent),
      AtMostOneModal app → AtMostOneModal (handleKeyEvent compile app key).1 := by
  refine ⟨by decide, ?_⟩
  intro compile app key h
  unfold AtMostOneModal at h ⊢
  unfold handleKeyEvent
  by_cases hb1 : app.is_filtering = true
  · rw [if_pos hb1]
    exact le_trans (modalCount_handleFilterInput app key) h
  rw [if_neg hb1]
  have f1 : app.is_filtering = false := Bool.eq_false_iff.mpr hb1
  by_cases hb2 : app.is_entering_command = true
  · rw [if_pos hb2]
    exact le_trans (modalCount_handleCommandInput compile app key) h
  rw [if_neg hb2]
  have f2 : app.is_entering_command = false := Bool.eq_false_iff.mpr hb2
  by_cases hb3 : app.is_entering_pipe = true
  · rw [if_pos hb3]
    exact le_trans (modalCount_handlePipeInput app key) h
  rw [if_neg hb3]
  have f3 : app.is_entering_pipe = false := Bool.eq_false_iff.mpr hb3
  by_cases hb4 : app.is_saving_output = true
  · rw [if_pos hb4]
    exact le_trans (modalCount_handleSaveInput app key) h
  rw [if_neg hb4]
  have f4 : app.is_saving_output = false := Bool.eq_false_iff.mpr hb4
  by_cases hb5 : app.is_entering_tunnel = true
  · rw [if_pos hb5]
    exact le_trans (modalCount_handleTunnelInput compile app key) h
  rw [if_neg hb5]
  have f5 : app.is_entering_tunnel = false := Bool.eq_false_iff.mpr hb5
  by_cases hb6 : app.is_showing_install_menu = true
  · rw [if_pos hb6]
    exact le_trans (modalCount_handleInstallMenuInput compile app key) h
  rw [if_neg hb6]
  have f6 : app.is_showing_install_menu = false := Bool.eq_false_iff.mpr hb6
  split
  · split <;>
      (simp only [modalCount, modalFlags, List.count_cons, List.count_nil,
        f1, f2, f3, f4, f5, f6] <;> decide)
  · split
    · simp only [modalCount, modalFlags, List.count_cons, List.count_nil,
        f1, f2, f3, f4, f5, f6]
      decide
    · split <;>
        first
          | exact modalCount_handleServerListInput compile app key f1 f2 f3 f4 f5 f6
          | exact modalCount_handleGroupListInput compile app key f1 f2 f3 f4 f5 f6
          | exact modalCount_handleDetailsInput compile app key f1 f2 f3 f4 f5 f6
          | exact modalCount_handleHelpInput app key f1 f2 f3 f4 f5 f6
          | exact modalCount_handleCommandOutputInput app key f1 f2 f3 f4 f5 f6
          | exact modalCount_handleTunnelsInput app key f1 f2 f3 f4 f5 f6

/-- Witness for C6: the initial state satisfies the invariant, and
dispatching the filter key on it preserves it. -/
theorem handle_key_event_modal_exclusion_witness :
    AtMostOneModal App.new ∧
    AtMostOneModal (handleKeyEvent (fun _ => none) App.new
      { code := KeyCode.CharKey '/' }).1 :=
  ⟨handle_key_event_modal_exclusion.1,
    handle_key_event_modal_exclusion.2 (fun _ => none) App.new
      { code := KeyCode.CharKey '/' } (by decide)⟩

end Ggoto

namespace Ggoto

theorem getLast?_getD_cons {α : Type _} (a d : α) (l : List α) :
    (a :: l).getLast?.getD d = l.getLast?.getD a := by
  rw [← List.getLastD_eq_getLast?, ← List.getLastD_eq_getLast?,
    List.getLastD_cons]

theorem applySpec_nil (pu32 pu64 : Str → Option Nat) (pf32 : Str → Option Rat)
    (m : SystemMetrics) : applySpec pu32 pu64 pf32 m [] = m := by
  simp [applySpec, specCoresVals, specCpuVals, specMemVals, specLoadVals,
    specUsers, specGpus, specMoshVals]

theorem applySpec_cons (pu32 pu64 : Str → Option Nat) (pf32 : Str → Option Rat)
    (m : SystemMetrics) (sec t : Str) (tagged : List (Str × Str)) :
    applySpec pu32 pu64 pf32 m ((sec, t) :: tagged)
      = applySpec pu32 pu64 pf32 (lineUpdate pu32 pu64 pf32 m sec t) tagged := by
  by_cases h1 : sec = ['C', 'O', 'R', 'E', 'S']
  · subst h1
    cases hp : pu32 t with
    | none =>
        simp [applySpec, lineUpdate, specCoresVals, specCpuVals, specMemVals,
          specLoadVals, specUsers, specGpus, specMoshVals, getLast?_getD_cons, hp]
    | some c =>
        simp [applySpec, lineUpdate, specCoresVals, specCpuVals, specMemVals,
          specLoadVals, specUsers, specGpus, specMoshVals, getLast?_getD_cons, hp]
  by_cases h2 : sec = ['C', 'P', 'U']
  · subst h2
    cases hp : pf32 t with
    | none =>
        simp [applySpec, lineUpdate, specCoresVals, specCpuVals, specMemVals,
          specLoadVals, specUsers, specGpus, specMoshVals, getLast?_getD_cons, hp]
    | some c =>
        simp [applySpec, lineUpdate, specCoresVals, specCpuVals, specMemVals,
          specLoadVals, specUsers, specGpus, specMoshVals, getLast?_getD_cons, hp]
  by_cases h3 : sec = ['M', 'E', 'M']
  · subst h3
    rcases hp : splitWhitespace t with _ | ⟨a, _ | ⟨b, rest⟩⟩ <;>
      simp [applySpec, lineUpdate, specCoresVals, specCpuVals, specMemVals,
        specLoadVals, specUsers, specGpus, specMoshVals, getLast?_getD_cons, hp]
  by_cases h4 : sec = ['L', 'O', 'A', 'D']
  · subst h4
    rcases hp : splitOnChar ',' t with _ | ⟨a, _ | ⟨b, _ | ⟨c, rest⟩⟩⟩ <;>
      simp [applySpec, lineUpdate, specCoresVals, specCpuVals, specMemVals,
        specLoadVals, specUsers, specGpus, specMoshVals, getLast?_getD_cons, hp]
  by_cases h5 : sec = ['U', 'S', 'E', 'R', 'S']
  · subst h5
    by_cases he : t = [] <;>
      simp [applySpec, lineUpdate, specCoresVals, specCpuVals, specMemVals,
        specLoadVals, specUsers, specGpus, specMoshVals, getLast?_getD_cons, he]
  by_cases h6 : sec = ['G', 'P', 'U']
  · subst h6
    by_cases hg : t = [] ∨ ['r', 'o', 'c', 'm'] <+: t
    · simp [applySpec, lineUpdate, specCoresVals, specCpuVals, specMemVals,
        specLoadVals, specUsers, specGpus, specMoshVals, specGpuOfLine, getLast?_getD_cons, hg]
    · rcases hp : (splitOnChar ',' t).map trimStr with
        _ | ⟨a, _ | ⟨b, _ | ⟨c, _ | ⟨d, rest⟩⟩⟩⟩ <;>
        simp [applySpec, lineUpdate, specCoresVals, specCpuVals, specMemVals,
          specLoadVals, specUsers, specGpus, specMoshVals, specGpuOfLine,
          getLast?_getD_cons, hg, hp]
  by_cases h7 : sec = ['M', 'O', 'S', 'H']
  · subst h7
    simp [applySpec, lineUpdate, specCoresVals, specCpuVals, specMemVals,
      specLoadVals, specUsers, specGpus, specMoshVals, getLast?_getD_cons]
  simp [applySpec, lineUpdate, specCoresVals, specCpuVals, specMemVals,
    specLoadVals, specUsers, specGpus, specMoshVals, h1, h2, h3, h4, h5,
    h6, h7]

theorem foldParse_eq (pu32 pu64 : Str → Option Nat) (pf32 : Str → Option Rat)
    (ls : List Str) :
    ∀ (sec : Str) (m : SystemMetrics),
      (ls.foldl (parseMetricsLine pu32 pu64 pf32) (sec, m)).2
        = applySpec pu32 pu64 pf32 m (specTaggedLines ls sec) := by
  induction ls with
  | nil =>
      intro sec m
      simp [specTaggedLines, applySpec_nil]
  | cons l ls ih =>
      intro sec m
      rw [List.foldl_cons]
      by_cases hm : ['=', '=', '='] <+: trimStr l
      · have hstep : parseMetricsLine pu32 pu64 pf32 (sec, m) l
            = (trimEq (trimStr l), m) := by
          simp [parseMetricsLine, hm]
        rw [hstep, ih]
        simp [specTaggedLines, hm]
      · have hstep : parseMetricsLine pu32 pu64 pf32 (sec, m) l
            = (sec, lineUpdate pu32 pu64 pf32 m sec (trimStr l)) := by
          simp [parseMetricsLine, hm]
        rw [hstep, ih]
        have ht : specTaggedLines (l :: ls) sec
            = (sec, trimStr l) :: specTaggedLines ls sec := by
          simp [specTaggedLines, hm]
        rw [ht, applySpec_cons]

/-- C8: `parse_metrics_output` is total and tolerant.  For every input
string and every behaviour of the numeric parsers it returns `Ok` of
exactly the spec-described record: each scalar metric is the last value its
section produced and keeps its zero/default value when the section is
absent or none of its lines is usable (`CORES`/`CPU` lines only overwrite
on a successful parse; `MEM`/`LOAD` lines with enough fields store each
field with `unwrap_or(0)`); `USERS` appends the non-empty lines; GPU lines
are parsed as comma-separated `name, utilization%, memory-used,
memory-total` with both memory figures scaled from mebibytes to bytes by
the `u64` product `* 1024 * 1024`; `MOSH` records whether the last `MOSH`
line equals `"yes"`.  Parsing never fails the whole snapshot. -/
theorem parse_metrics_output_tolerant (pu32 pu64 : Str → Option Nat)
    (pf32 : Str → Option Rat) (output : Str) :
    parse_metrics_output pu32 pu64 pf32 output
      = Except.ok (specMetricsOf pu32 pu64 pf32 output) := by
  unfold parse_metrics_output specMetricsOf
  rw [foldParse_eq]

end Ggoto
